import Mathlib

/-!
Shallow embedding of the bughouse server's session core (Rust sources under
`src/`): user/session data model (`src/data.rs`, `src/session/mod.rs`),
parsing helpers (`src/session/utils/mod.rs`), the pairing planner
(`src/session/utils/pairings.rs`), and the session actor's state transitions
(`src/session/mod.rs`, `src/session/handler.rs`, `src/sessions.rs`).

Rust `HashMap`s are modelled as association lists with replace-or-append
insertion (key sets stay duplicate-free, and lookup finds the first match,
matching `HashMap` observably).  `Instant` and `Duration` are modelled as
`Nat` (a monotone clock; `Duration` arithmetic saturates at zero exactly as
`checked_sub(..).unwrap_or(ZERO_SECS)` does, which is `Nat` subtraction).
The external chess rules oracle (`bughouse_rs::logic::ChessLogic`) is out of
scope per the specification; it is modelled as an opaque state type `σ`
together with a record of its operations (`LogicModel`).
-/

namespace Bughouse

/-- Association-list model of `HashMap::get`: first entry with the key. -/
def lookupA {α : Type} : List (Nat × α) → Nat → Option α
  | [], _ => none
  | (k, v) :: rest, key => if k = key then some v else lookupA rest key

/-- Association-list model of `HashMap::insert`: replace the existing entry
for the key, else append. -/
def insertA {α : Type} : List (Nat × α) → Nat → α → List (Nat × α)
  | [], key, v => [(key, v)]
  | (k, w) :: rest, key, v =>
    if k = key then (k, v) :: rest else (k, w) :: insertA rest key v

/-- `parse_pos` from `src/session/utils/mod.rs`: reads the first two bytes of
the string (as UTF-8 bytes), requires the first in `97..=104` (`'a'..='h'`)
and the second in `48..=55` (`'0'..='7'`), and yields `(col, row)` as
`(byte - 97, byte - 48)`.  Bytes after the first two are never inspected. -/
def parse_pos : List Nat → Option (Nat × Nat)
  | col :: row :: _ =>
    if 97 ≤ col ∧ col ≤ 104 ∧ 48 ≤ row ∧ row ≤ 55 then
      some (col - 97, row - 48)
    else
      none
  | _ => none

/-- The piece alphabet of `bughouse_rs::logic::board::Piece` as matched by
`parse_piece` in `src/session/utils/mod.rs`. -/
inductive Piece where
  | bb | bB | bE | bk | bK | bL | bn | bN | bp | bP | bq | bQ | br | bR
  | bUb | bUB | bUn | bUN | bUq | bUQ | bUr | bUR
  deriving DecidableEq, Repr

/-- `parse_piece` from `src/session/utils/mod.rs`: exact string match over
the 22-symbol piece alphabet. -/
def parse_piece : List Char → Option Piece
  | ['b'] => some .bb
  | ['B'] => some .bB
  | ['E'] => some .bE
  | ['k'] => some .bk
  | ['K'] => some .bK
  | ['L'] => some .bL
  | ['n'] => some .bn
  | ['N'] => some .bN
  | ['p'] => some .bp
  | ['P'] => some .bP
  | ['q'] => some .bq
  | ['Q'] => some .bQ
  | ['r'] => some .br
  | ['R'] => some .bR
  | ['U', 'b'] => some .bUb
  | ['U', 'B'] => some .bUB
  | ['U', 'n'] => some .bUn
  | ['U', 'N'] => some .bUN
  | ['U', 'q'] => some .bUq
  | ['U', 'Q'] => some .bUQ
  | ['U', 'r'] => some .bUr
  | ['U', 'R'] => some .bUR
  | _ => none

/-- `validate_user_name` from `src/session/utils/mod.rs` (also named
`is_valid_user_name` at its call sites in `src/session/mod.rs`): non-empty
and every character alphabetic or whitespace.  The Unicode character classes
`char::is_alphabetic` / `char::is_whitespace` are abstracted as the two
boolean predicates `ia` / `iw`. -/
def validate_user_name (ia iw : Char → Bool) (name : List Char) : Bool :=
  !name.isEmpty && name.all fun c => ia c || iw c

/-- `User` from `src/data.rs`: display name and score (default 0). -/
structure User where
  name : List Char
  score : Nat
  deriving DecidableEq, Repr

/-- `User::new` from `src/data.rs`: `None` when some character is neither
alphabetic nor whitespace, else a user with score 0.  The emptiness of the
name is not checked here. -/
def User.new (ia iw : Char → Bool) (name : List Char) : Option User :=
  if name.any (fun c => !ia c && !iw c) then none else some ⟨name, 0⟩

/-! ## Pairing planner (`src/session/utils/pairings.rs`) -/

/-- `contains` from `src/session/utils/pairings.rs`: index of the first
occurrence of `el` in `v1`. -/
def containsI (v1 : List Nat) (el : Nat) : Option Nat :=
  v1.findIdx? (fun x => x = el)

/-- `contains_vec` from `src/session/utils/pairings.rs`: index of the first
inner vector whose first two entries match `el`'s first two entries. -/
def contains_vec (v1 : List (List Nat)) (el : List Nat) : Option Nat :=
  v1.findIdx? fun x => x.getD 0 0 = el.getD 0 0 && x.getD 1 0 = el.getD 1 0

/-- `diff_values` from `src/session/utils/pairings.rs`: remove from `v1` the
first occurrence of each element of `v2`. -/
def diff_values (v1 v2 : List Nat) : List Nat :=
  v2.foldl (fun acc e => acc.erase e) v1

/-- `enum_w_depth` from `src/session/utils/pairings.rs`: the entry at
`offset` of the sorted difference `l \ tp`. -/
def enum_w_depth (l tp : List Nat) (offset : Nat) : Nat :=
  ((diff_values l tp).insertionSort (· ≤ ·)).getD offset 0

/-- Inner `for k in 0..x` loop of `combinations` at depth `j`, threading the
output vector and the `depthEnum` offset. -/
def combDepth (l : List Nat) (len x depthctr j : Nat)
    (vec : List (List Nat)) (offset : Nat) : List (List Nat) × Nat :=
  (List.range x).foldl
    (fun st k =>
      let tp := st.1.getD k []
      let tp := tp.set j (enum_w_depth l tp st.2)
      let off := st.2 + 1
      (st.1.set k tp, if len - depthctr ≤ off then 0 else off))
    (vec, offset)

/-- `combinations` from `src/session/utils/pairings.rs`: all ordered
`n`-tuples of distinct elements of `l`, built exactly as the source does
(block fill of the first component, then depth-by-depth fill through
`enum_w_depth` with the rotating offset). -/
def combinations (l : List Nat) (n : Nat) : List (List Nat) :=
  let len := l.length
  let x := (List.range n).foldl (fun acc o => acc * (len - o)) 1
  let vec := (List.range x).map fun _ => List.replicate n 0
  let blocksize := x / len
  let vec :=
    (List.range len).foldl
      (fun v i =>
        (List.range blocksize).foldl
          (fun v k =>
            v.set (i * blocksize + k) ((v.getD (i * blocksize + k) []).set 0 (l.getD i 0)))
          v)
      vec
  let st :=
    (List.range (n - 1)).foldl
      (fun (st : List (List Nat) × Nat × Nat) j =>
        let r := combDepth l len x st.2.2 (j + 1) st.1 st.2.1
        (r.1, r.2, st.2.2 + 1))
      (vec, 0, 1)
  st.1

/-- `map_indices` from `src/session/utils/pairings.rs`: for each pair in `v`,
the index in `v` of the reversed pair (skipped when absent). -/
def map_indices (v : List (List Nat)) : List Nat :=
  v.foldl
    (fun acc vi =>
      match contains_vec v [vi.getD 1 0, vi.getD 0 0] with
      | none => acc
      | some i => acc ++ [i])
    []

/-- The marking loop of `rm_ordering`: walk `x` once, marking the partner
index `x[i]` as removed the first time an unchecked mutual pair is seen. -/
def rmLoop (x : List Nat) : List Bool × List Bool :=
  (List.range x.length).foldl
    (fun st i =>
      let xi := x.getD i 0
      if !(st.2.getD i false) && !(st.1.getD xi false) && !(st.2.getD xi false) then
        (st.1.set xi true, (st.2.set i true).set xi true)
      else st)
    (List.replicate x.length false, List.replicate x.length false)

/-- `rm_ordering` from `src/session/utils/pairings.rs`: keep one
representative of each `{a,b}` pair, collected through the `x[i]`
indirection exactly as the source's final loop does. -/
def rm_ordering (v : List (List Nat)) : List (List Nat) :=
  let x := map_indices v
  let rmed := (rmLoop x).1
  (List.range x.length).foldl
    (fun acc i =>
      let xi := x.getD i 0
      if !(rmed.getD xi false) then acc ++ [v.getD xi []] else acc)
    []

/-- `create_team_pairings` from `src/session/utils/pairings.rs`: all ordered
pairs of disjoint teams, flattened to `[a, b, c, d]`. -/
def create_team_pairings (v : List (List Nat)) : List (List Nat) :=
  v.foldl
    (fun acc i =>
      v.foldl
        (fun acc j =>
          let i0 := i.getD 0 0
          let i1 := i.getD 1 0
          let j0 := j.getD 0 0
          let j1 := j.getD 1 0
          if (j0 ≠ i0 ∧ j0 ≠ i1) ∧ (j1 ≠ i1 ∧ j1 ≠ i0) then
            acc ++ [[i0, i1, j0, j1]]
          else acc)
        acc)
    []

/-- `team_comb` from `src/session/utils/pairings.rs`: expand each
`[a, b, c, d]` into the four color permutations. -/
def team_comb (vec : List (List Nat)) : List ((Nat × Nat) × (Nat × Nat)) :=
  vec.foldl
    (fun l t =>
      let a := t.getD 0 0
      let b := t.getD 1 0
      let c := t.getD 2 0
      let d := t.getD 3 0
      l ++ [((a, b), (c, d)), ((a, b), (d, c)), ((b, a), (c, d)), ((b, a), (d, c))])
    []

/-- `create_pairings` from `src/session/utils/pairings.rs`: the deterministic
pairing queue for participants numbered `1..=n`. -/
def create_pairings (n : Nat) : List ((Nat × Nat) × (Nat × Nat)) :=
  let arr := (List.range n).map (· + 1)
  team_comb (create_team_pairings (rm_ordering (combinations arr 2)))

/-- `create_pairings_wr` from `src/session/utils/mod.rs`: hard-coded queue
for `n = 4`, falling back to `create_pairings 4` otherwise. -/
def create_pairings_wr (n : Nat) : List ((Nat × Nat) × (Nat × Nat)) :=
  if n = 4 then
    [((1, 2), (3, 4)), ((1, 2), (4, 3)), ((2, 1), (3, 4)), ((2, 1), (4, 3)),
     ((1, 3), (2, 4)), ((1, 3), (4, 2)), ((3, 1), (2, 4)), ((3, 1), (4, 2)),
     ((2, 3), (1, 4)), ((2, 3), (4, 1)), ((3, 2), (1, 4)), ((3, 2), (4, 1)),
     ((1, 4), (2, 3)), ((1, 4), (3, 2)), ((4, 1), (2, 3)), ((4, 1), (3, 2)),
     ((2, 4), (1, 3)), ((2, 4), (3, 1)), ((4, 2), (1, 3)), ((4, 2), (3, 1)),
     ((3, 4), (1, 2)), ((3, 4), (2, 1)), ((4, 3), (1, 2)), ((4, 3), (2, 1))]
  else
    create_pairings 4

/-! ## Game model (`src/session/mod.rs`) -/

/-- Constants from `src/session/mod.rs`, in seconds. -/
def GAME_DURATION : Nat := 300

/-- Promotion bonus from `src/session/mod.rs`, in seconds. -/
def PROMOTE_ADDED_TIME : Nat := 3

/-- `ZERO_SECS` from `src/session/mod.rs`. -/
def ZERO_SECS : Nat := 0

/-- `BROADCAST_MAX_FAILURE` from `src/session/mod.rs`. -/
def BROADCAST_MAX_FAILURE : Nat := 20

/-- `bughouse_rs::logic::Winner` as used by `src/session/mod.rs` and listed
in the specification: per-board winners, a draw `P`, or continue. -/
inductive Winner where
  | W1 | B1 | W2 | B2 | P | Continue
  deriving DecidableEq, Repr

/-- The external rules oracle (`bughouse_rs::logic::ChessLogic`), out of
scope per the specification, abstracted over its state type `σ`: the
operations the session core consumes.  Fallible operations return `none` on
rejection (the oracle's `Err`), in which case the stored state is kept. -/
structure LogicModel (σ : Type) where
  init : σ
  getWhiteActive : σ → Bool → Bool
  deployPiece : σ → Bool → Bool → Piece → Nat → Nat → Option σ
  movemaker : σ → Bool → Nat → Nat → Nat → Nat → Option σ
  setPromotion : σ → Bool → Piece → σ
  resignL : σ → Bool → Bool → σ
  getWinner : σ → Bool → Winner
  parseChange : List Char → Option (Nat × Nat × Nat × Nat)

/-- `Game` from `src/session/mod.rs`.  `clock` is one `(anchor, paused)`
pair per board; `remaining_time` follows the order of
`active_participants`, i.e. `((board1 white, board2 black), (board1 black,
board2 white))`. -/
structure Game (σ : Type) where
  active_participants : (Nat × Nat) × (Nat × Nat)
  clock : (Nat × Bool) × (Nat × Bool)
  remaining_time : (Nat × Nat) × (Nat × Nat)
  logic : σ

/-- `Game::new` from `src/session/mod.rs`: both clocks anchored at `now`
and unpaused, all four remaining times at `GAME_DURATION`, fresh oracle
state. -/
def Game.new {σ : Type} (L : LogicModel σ) (ap : (Nat × Nat) × (Nat × Nat))
    (now : Nat) : Game σ :=
  { active_participants := ap
    clock := ((now, false), (now, false))
    remaining_time := ((GAME_DURATION, GAME_DURATION), (GAME_DURATION, GAME_DURATION))
    logic := L.init }

/-- `Game::board_and_color` from `src/session/mod.rs`: position of a user in
the active-participants tuple, as `(board, color)` booleans. -/
def Game.board_and_color {σ : Type} (g : Game σ) (user_id : Nat) :
    Option (Bool × Bool) :=
  let a := g.active_participants.1.1
  let b := g.active_participants.1.2
  let c := g.active_participants.2.1
  let d := g.active_participants.2.2
  if a = user_id then some (true, true)
  else if b = user_id then some (false, false)
  else if c = user_id then some (true, false)
  else if d = user_id then some (false, true)
  else none

/-- `Game::refresh_clock` from `src/session/mod.rs`: set the chosen board's
anchor to `now` (`Instant::now()`). -/
def Game.refresh_clock {σ : Type} (g : Game σ) (board : Bool) (now : Nat) :
    Game σ :=
  if board then
    { g with clock := ((now, g.clock.1.2), g.clock.2) }
  else
    { g with clock := (g.clock.1, (now, g.clock.2.2)) }

/-- Write the remaining-time cell the source selects through
`(rw, rb) = if board { (r1, r3) } else { (r4, r2) }` followed by the
white-active test: `(board1, white) ↦ r1`, `(board1, black) ↦ r3`,
`(board2, white) ↦ r4`, `(board2, black) ↦ r2`. -/
def Game.setRT {σ : Type} (g : Game σ) (board white : Bool) (v : Nat) :
    Game σ :=
  let ((r1, r2), (r3, r4)) := g.remaining_time
  if board then
    if white then { g with remaining_time := ((v, r2), (r3, r4)) }
    else { g with remaining_time := ((r1, r2), (v, r4)) }
  else
    if white then { g with remaining_time := ((r1, r2), (r3, v)) }
    else { g with remaining_time := ((r1, v), (r3, r4)) }

/-- Read the remaining-time cell selected as in `Game.setRT`. -/
def Game.getRT {σ : Type} (g : Game σ) (board white : Bool) : Nat :=
  let ((r1, r2), (r3, r4)) := g.remaining_time
  if board then (if white then r1 else r3) else (if white then r4 else r2)

/-- `Game::extend_remaining_time` from `src/session/mod.rs`: add `duration`
to the remaining time of the side currently to move on `board`. -/
def Game.extend_remaining_time {σ : Type} (L : LogicModel σ) (g : Game σ)
    (board : Bool) (duration : Nat) : Game σ :=
  let w := L.getWhiteActive g.logic board
  g.setRT board w (g.getRT board w + duration)

/-- `Game::update_remaining_time` from `src/session/mod.rs`: unless the
board's clock is paused, subtract the time elapsed since its anchor
(saturating at zero, as `checked_sub(..).unwrap_or(ZERO_SECS)`) from the
remaining time of the side currently to move on `board`.  `now` stands for
the instant at which `c.elapsed()` is taken. -/
def Game.update_remaining_time {σ : Type} (L : LogicModel σ) (g : Game σ)
    (board : Bool) (now : Nat) : Game σ :=
  let (c, p) := if board then g.clock.1 else g.clock.2
  if p then g
  else
    let w := L.getWhiteActive g.logic board
    g.setRT board w (g.getRT board w - (now - c))

/-- `Game::winner` from `src/session/mod.rs`: flag fall on either board
takes priority (in source order `B1`, `W2`, `W1`, `B2`), else the oracle's
cross-board winner. -/
def Game.winner {σ : Type} (L : LogicModel σ) (g : Game σ) : Winner :=
  let ((r1, r2), (r3, r4)) := g.remaining_time
  if L.getWhiteActive g.logic true ∧ r1 = ZERO_SECS then .B1
  else if ¬L.getWhiteActive g.logic false ∧ r2 = ZERO_SECS then .W2
  else if ¬L.getWhiteActive g.logic true ∧ r3 = ZERO_SECS then .W1
  else if L.getWhiteActive g.logic false ∧ r4 = ZERO_SECS then .B2
  else L.getWinner g.logic true

/-- `Game::resign` from `src/session/mod.rs`: look the caller up in the
active-participants tuple and forward to the oracle.  Returns the state
after the call and the success flag. -/
def Game.resign {σ : Type} (L : LogicModel σ) (g : Game σ) (user_id : Nat) :
    Game σ × Bool :=
  match g.board_and_color user_id with
  | none => (g, false)
  | some (b, w) => ({ g with logic := L.resignL g.logic b w }, true)

/-- `Game::deploy_piece` from `src/session/mod.rs`: participant lookup, then
piece and square parsing, then clock reconciliation
(`update_remaining_time`; `refresh_clock`), then the oracle call, then a
second `refresh_clock`.  `n1` is the instant of the `update_remaining_time`
call, `n2` and `n3` those of the two `refresh_clock` calls.  As in the Rust
(`&mut self`), the state reached before an error is kept. -/
def Game.deploy_piece {σ : Type} (L : LogicModel σ) (g : Game σ)
    (user_id : Nat) (piece : List Char) (pos : List Nat) (n1 n2 n3 : Nat) :
    Game σ × Bool :=
  match g.board_and_color user_id with
  | none => (g, false)
  | some (b1, w) =>
    match parse_piece piece with
    | none => (g, false)
    | some pc =>
      match parse_pos pos with
      | none => (g, false)
      | some (col, row) =>
        let g := Game.update_remaining_time L g b1 n1
        let g := g.refresh_clock b1 n2
        match L.deployPiece g.logic b1 w pc row col with
        | none => (g, false)
        | some l => ((({ g with logic := l } : Game σ).refresh_clock b1 n3), true)

/-- `Game::move_piece` from `src/session/mod.rs`: participant lookup, the
wrong-side-to-move check, change parsing, clock reconciliation, the oracle
call, and the final `refresh_clock`; the state reached before an error is
kept. -/
def Game.move_piece {σ : Type} (L : LogicModel σ) (g : Game σ)
    (user_id : Nat) (change : List Char) (n1 n2 n3 : Nat) : Game σ × Bool :=
  match g.board_and_color user_id with
  | none => (g, false)
  | some (b1, w) =>
    if L.getWhiteActive g.logic b1 ≠ w then (g, false)
    else
      match L.parseChange change with
      | none => (g, false)
      | some (i, j, i_new, j_new) =>
        let g := Game.update_remaining_time L g b1 n1
        let g := g.refresh_clock b1 n2
        match L.movemaker g.logic b1 i j i_new j_new with
        | none => (g, false)
        | some l => ((({ g with logic := l } : Game σ).refresh_clock b1 n3), true)

/-- `Game::promote_piece` from `src/session/mod.rs`: like `move_piece`, but
after parsing the target piece the promotion target is set on the oracle and
`PROMOTE_ADDED_TIME` is added to the side to move on that board before the
clock reconciliation and the oracle move; the state reached before an error
is kept. -/
def Game.promote_piece {σ : Type} (L : LogicModel σ) (g : Game σ)
    (user_id : Nat) (change upgrade_to : List Char) (n1 n2 n3 : Nat) :
    Game σ × Bool :=
  match g.board_and_color user_id with
  | none => (g, false)
  | some (b1, w) =>
    if L.getWhiteActive g.logic b1 ≠ w then (g, false)
    else
      match L.parseChange change with
      | none => (g, false)
      | some (i, j, i_new, j_new) =>
        match parse_piece upgrade_to with
        | none => (g, false)
        | some up =>
          let g := ({ g with logic := L.setPromotion g.logic b1 up } : Game σ)
          let g := Game.extend_remaining_time L g b1 PROMOTE_ADDED_TIME
          let g := Game.update_remaining_time L g b1 n1
          let g := g.refresh_clock b1 n2
          match L.movemaker g.logic b1 i j i_new j_new with
          | none => (g, false)
          | some l => ((({ g with logic := l } : Game σ).refresh_clock b1 n3), true)

/-! ## Session model (`src/session/mod.rs`, `src/session/handler.rs`,
`src/sessions.rs`) -/

/-- `GameState` from `src/session/mod.rs`: lobby, active game, or concluded
game. -/
inductive GameState (σ : Type) where
  | starting
  | started (id : Nat) (game : Game σ)
  | ended (id : Nat)

/-- `GameState::is_starting` from `src/session/mod.rs`. -/
def GameState.is_starting {σ : Type} : GameState σ → Bool
  | .starting => true
  | _ => false

/-- `GameState::did_start` from `src/session/mod.rs`. -/
def GameState.did_start {σ : Type} : GameState σ → Bool
  | .started _ _ => true
  | _ => false

/-- `GameState::did_end` from `src/session/mod.rs`. -/
def GameState.did_end {σ : Type} : GameState σ → Bool
  | .ended _ => true
  | _ => false

/-- `GameState::id` from `src/session/mod.rs`: 0 in `Starting`, the stored
id otherwise. -/
def GameState.id {σ : Type} : GameState σ → Nat
  | .starting => 0
  | .started i _ => i
  | .ended i => i

/-- `GameState::get` from `src/session/mod.rs`. -/
def GameState.get {σ : Type} : GameState σ → Option (Game σ)
  | .started _ g => some g
  | _ => none

/-- `GameState::map` from `src/session/mod.rs`: apply `f` to the game when
one is active (the `&mut` version: the updated game is stored back). -/
def GameState.mapG {σ : Type} (gs : GameState σ) (f : Game σ → Game σ) :
    GameState σ :=
  match gs with
  | .started i g => .started i (f g)
  | other => other

/-- The event payloads emitted through `Session::notify_all` in
`src/session/mod.rs` (`EventType::GameEnded { winners }`,
`GameStarted`, `Joined`, `ParticipantsChanged`, board deltas). -/
inductive EventType where
  | joined (user_id : Nat) (user_name : List Char)
  | participantsChanged
  | gameStarted (game_id : Nat) (ap : (Nat × Nat) × (Nat × Nat))
  | gameEnded (winners : Option (Nat × Nat))
  | pieceDeployed (board : Bool) (piece : List Char) (pos : List Nat)
  | pieceMoved (board : Bool) (change : List Char)
  | piecePromoted (board : Bool) (change upgrade_to : List Char)
  | periodic
  deriving DecidableEq

/-- `Session` from `src/session/mod.rs`.  The broadcast side is modelled by
`hasReceiver` (whether `broadcast_tx.send` currently succeeds — the tokio
broadcast `send` fails exactly when no receiver exists), the `events` log of
`notify_all` emissions, and `rxClosed` standing for `self.rx.close()` having
been called.  `maxUser` / `maxParticipant` are the configuration snapshot
(`config.max_user()` / `config.max_participant()`). -/
structure Session (σ : Type) where
  user_ids : List (Nat × Nat)
  users : List (Nat × User)
  participants : List Nat
  queue : List ((Nat × Nat) × (Nat × Nat))
  game : GameState σ
  failed_broadcasts : Nat
  hasReceiver : Bool
  rxClosed : Bool
  events : List (Nat × EventType)
  maxUser : Nat
  maxParticipant : Nat

/-- `Session::new` from `src/session/mod.rs`: rejects an invalid owner name,
otherwise a session with empty user maps, no participants, an empty queue,
`GameState::Starting` and a zeroed failure counter. -/
def Session.new (σ : Type) (ia iw : Char → Bool) (owner_name : List Char)
    (hasReceiver : Bool) (maxUser maxParticipant : Nat) :
    Option (Session σ) :=
  if !validate_user_name ia iw owner_name then none
  else
    some
      { user_ids := []
        users := []
        participants := []
        queue := []
        game := .starting
        failed_broadcasts := 0
        hasReceiver := hasReceiver
        rxClosed := false
        events := []
        maxUser := maxUser
        maxParticipant := maxParticipant }

/-- `Sessions::spawn` from `src/sessions.rs`: mint a session id, construct
the session via `Session::new` (`None` propagates), and insert the command
endpoint into the registry map.  The registry is modelled as the id-indexed
map of spawned sessions. -/
def Sessions.spawn (σ : Type) (ia iw : Char → Bool)
    (reg : List (Nat × Session σ)) (session_id : Nat)
    (owner_name : List Char) (hasReceiver : Bool)
    (maxUser maxParticipant : Nat) :
    Option (List (Nat × Session σ) × Session σ) :=
  match Session.new σ ia iw owner_name hasReceiver maxUser maxParticipant with
  | none => none
  | some s => some (insertA reg session_id s, s)

/-- `Session::is_owner` from `src/session/mod.rs`: the token resolves to
`UserId::OWNER` (0). -/
def Session.is_owner {σ : Type} (s : Session σ) (auth_token : Nat) : Bool :=
  match lookupA s.user_ids auth_token with
  | some user_id => user_id = 0
  | none => false

/-- `Session::add_user` from `src/session/mod.rs`: reject an invalid name or
a full session, else assign `UserId(user_ids.len() as u8)`, mint a token
(`auth_token` parameter stands for `AuthToken::new()`), build the user via
`User::new`, and insert into both maps. -/
def Session.add_user {σ : Type} (ia iw : Char → Bool) (s : Session σ)
    (name : List Char) (auth_token : Nat) :
    Session σ × Option (Nat × Nat) :=
  if !validate_user_name ia iw name ∨ s.maxUser ≤ s.user_ids.length then
    (s, none)
  else
    let user_id := s.user_ids.length % 256
    match User.new ia iw name with
    | none => (s, none)
    | some user =>
      ({ s with
          user_ids := insertA s.user_ids auth_token user_id
          users := insertA s.users user_id user },
        some (user_id, auth_token))

/-- `Session::set_participants` from `src/session/mod.rs`: only in
`Starting` and only when every listed id is a known user. -/
def Session.set_participants {σ : Type} (s : Session σ)
    (participants : List Nat) : Session σ × Bool :=
  if !s.game.is_starting ∨ participants.any (fun p => (lookupA s.users p).isNone) then
    (s, false)
  else
    ({ s with participants := participants }, true)

/-- `Session::fill_queue` from `src/session/mod.rs`: a non-empty queue is
kept; an empty queue is only (re)filled in `Starting`, by instantiating
`create_pairings` over the participants list. -/
def Session.fill_queue {σ : Type} (s : Session σ) : Session σ × Bool :=
  if 0 < s.queue.length then (s, true)
  else if !s.game.is_starting then (s, false)
  else
    let pairings := create_pairings s.participants.length
    let q := pairings.map fun pr =>
      ((s.participants.getD (pr.1.1 - 1) 0, s.participants.getD (pr.1.2 - 1) 0),
        (s.participants.getD (pr.2.1 - 1) 0, s.participants.getD (pr.2.2 - 1) 0))
    ({ s with queue := q }, true)

/-- `Session::start_game` from `src/session/mod.rs`: participants bounds and
not-already-started checks, lazy `fill_queue`, pop of the head pairing, and
transition to `Started { id: old id + 1, game: Game::new(..) }`. -/
def Session.start_game {σ : Type} (L : LogicModel σ) (s : Session σ)
    (now : Nat) : Session σ × Bool :=
  if s.participants.length < 4 ∨ s.maxParticipant < s.participants.length ∨
      s.game.did_start then
    (s, false)
  else
    match Session.fill_queue s with
    | (s, false) => (s, false)
    | (s, true) =>
      match s.queue with
      | [] => (s, false)
      | ap :: rest =>
        ({ s with
            queue := rest
            game := .started (s.game.id + 1) (Game.new L ap now) },
          true)

/-- The owner gate of the `Start` command (`handle_start` in
`src/session/handler.rs` checks `is_owner` before starting), composed with
`Session::start_game` from `src/session/mod.rs`. -/
def Session.handle_start {σ : Type} (L : LogicModel σ) (s : Session σ)
    (auth_token : Nat) (now : Nat) : Session σ × Bool :=
  if !s.is_owner auth_token then (s, false) else Session.start_game L s now

/-- `Session::notify_all` from `src/session/mod.rs`: the event is sent on
the broadcast channel (logged in `events`); success resets
`failed_broadcasts`, failure (no receiver) increments it; afterwards the
command endpoint is closed when the counter exceeds
`BROADCAST_MAX_FAILURE`. -/
def Session.notify_all {σ : Type} (s : Session σ) (caused_by : Nat)
    (ev : EventType) : Session σ :=
  let s := { s with events := s.events ++ [(caused_by, ev)] }
  let s :=
    if s.hasReceiver then { s with failed_broadcasts := 0 }
    else { s with failed_broadcasts := s.failed_broadcasts + 1 }
  if BROADCAST_MAX_FAILURE < s.failed_broadcasts then
    { s with rxClosed := true }
  else s

/-- Bump a user's score by 1, as `users.get_mut(&uid).map(|u| *u.score_mut() += 1)`
does (the entry for `uid`, when present, gains one point; keys are unique in
the `HashMap` model). -/
def bumpScore : List (Nat × User) → Nat → List (Nat × User)
  | [], _ => []
  | (k, u) :: rest, uid =>
    if k = uid then (k, { u with score := u.score + 1 }) :: bumpScore rest uid
    else (k, u) :: bumpScore rest uid

/-- `Session::check_end_conditions` from `src/session/mod.rs`: when a game
is active, map `Game::winner` to an outcome — `W1 | B2`: team one's two
members' scores are bumped, the state becomes `Ended { id }` and
`GameEnded { winners: Some((u1, u2)) }` is emitted with `caused_by = u1`;
`B1 | W2`: symmetrically for team two; `P`: `Ended { id }` with
`winners: None` caused by the owner; `Continue`: no change. -/
def Session.check_end_conditions {σ : Type} (L : LogicModel σ)
    (s : Session σ) : Session σ :=
  match s.game.get with
  | none => s
  | some g =>
    let u1 := g.active_participants.1.1
    let u2 := g.active_participants.1.2
    let u3 := g.active_participants.2.1
    let u4 := g.active_participants.2.2
    match Game.winner L g with
    | .W1 | .B2 =>
      let s := { s with users := bumpScore (bumpScore s.users u1) u2 }
      let s := { s with game := .ended s.game.id }
      s.notify_all u1 (.gameEnded (some (u1, u2)))
    | .B1 | .W2 =>
      let s := { s with users := bumpScore (bumpScore s.users u3) u4 }
      let s := { s with game := .ended s.game.id }
      s.notify_all u3 (.gameEnded (some (u3, u4)))
    | .P =>
      let s := { s with game := .ended s.game.id }
      s.notify_all 0 (.gameEnded none)
    | _ => s

/-- `Session::tick` from `src/session/mod.rs`: when a game is active,
reconcile and re-anchor both boards' clocks, then check end conditions.
`n1 n2` are the instants of the board-1 update/refresh, `n3 n4` those of
board 2. -/
def Session.tick {σ : Type} (L : LogicModel σ) (s : Session σ)
    (n1 n2 n3 n4 : Nat) : Session σ :=
  let s :=
    { s with
        game := s.game.mapG fun g =>
          ((Game.update_remaining_time L g true n1).refresh_clock true n2
            |> fun g => Game.update_remaining_time L g false n3
            |> fun g => g.refresh_clock false n4) }
  Session.check_end_conditions L s

/-! ## Operation alphabets for execution-sequence properties -/

/-- The game-mutating steps that can occur while the session stays in
`Started`, excluding promotion: the periodic tick body
(`Session::tick`'s `map` closure) and the `Deploy` / `Move` board
commands. -/
inductive GameOp where
  | tick (n1 n2 n3 n4 : Nat)
  | deploy (user_id : Nat) (piece : List Char) (pos : List Nat) (n1 n2 n3 : Nat)
  | move (user_id : Nat) (change : List Char) (n1 n2 n3 : Nat)

/-- Apply a `GameOp`; board commands keep the state they reached even when
they fail, exactly as the `&mut self` methods do. -/
def applyGameOp {σ : Type} (L : LogicModel σ) (g : Game σ) : GameOp → Game σ
  | .tick n1 n2 n3 n4 =>
    (Game.update_remaining_time L g true n1).refresh_clock true n2
      |> (fun g => Game.update_remaining_time L g false n3)
      |> (fun g => g.refresh_clock false n4)
  | .deploy uid piece pos n1 n2 n3 => (Game.deploy_piece L g uid piece pos n1 n2 n3).1
  | .move uid change n1 n2 n3 => (Game.move_piece L g uid change n1 n2 n3).1

/-- Pointwise order on the four remaining-time cells. -/
def rtLE {σ : Type} (g g' : Game σ) : Prop :=
  g.remaining_time.1.1 ≤ g'.remaining_time.1.1 ∧
  g.remaining_time.1.2 ≤ g'.remaining_time.1.2 ∧
  g.remaining_time.2.1 ≤ g'.remaining_time.2.1 ∧
  g.remaining_time.2.2 ≤ g'.remaining_time.2.2

/-- The session-scoped commands and internal events of the actor loop
(`handler::handle_msg` / `handle_timer` dispatch): user addition,
participants update, queue fill, the `Start` command, the periodic tick,
board commands (which on success broadcast and tick, as in
`src/session/handler.rs`), resign (which triggers the end-condition check),
bare broadcasts, and owner deletion. -/
inductive SessionOp where
  | addUser (name : List Char) (auth_token : Nat)
  | setParticipants (participants : List Nat)
  | fillQueue
  | start (auth_token : Nat) (now : Nat)
  | tick (n1 n2 n3 n4 : Nat)
  | deploy (auth_token : Nat) (piece : List Char) (pos : List Nat) (n1 n2 n3 n4 n5 n6 n7 : Nat)
  | move (auth_token : Nat) (change : List Char) (n1 n2 n3 n4 n5 n6 n7 : Nat)
  | promote (auth_token : Nat) (change upgrade_to : List Char) (n1 n2 n3 n4 n5 n6 n7 : Nat)
  | resign (auth_token : Nat)
  | notify (caused_by : Nat) (ev : EventType)
  | delete (auth_token : Nat)

/-- Run a board-command body on the stored game (the handler's
`s.game.get_mut()` pattern): the mutated game is stored back whether or not
the command succeeded. -/
def Session.onGame {σ : Type} (s : Session σ)
    (f : Game σ → Game σ × Bool) : Session σ × Bool :=
  match s.game with
  | .started i g =>
    let r := f g
    ({ s with game := .started i r.1 }, r.2)
  | other => ({ s with game := other }, false)

/-- Apply a `SessionOp`.  Successful mutations broadcast an event; board
commands then run `Session::tick` (clock reconciliation plus end-condition
check), resign runs the end-condition check, and `Delete` closes the
command endpoint when the caller is the owner. -/
def applySessionOp {σ : Type} (L : LogicModel σ) (ia iw : Char → Bool)
    (s : Session σ) : SessionOp → Session σ
  | .addUser name tok =>
    match Session.add_user ia iw s name tok with
    | (s, none) => s
    | (s, some (uid, _)) => s.notify_all uid (.joined uid name)
  | .setParticipants ps =>
    match Session.set_participants s ps with
    | (s, false) => s
    | (s, true) => s.notify_all 0 .participantsChanged
  | .fillQueue => (Session.fill_queue s).1
  | .start tok now =>
    match Session.handle_start L s tok now with
    | (s, false) => s
    | (s, true) => s.notify_all 0 (.gameStarted s.game.id
        (match s.game.get with
         | some g => g.active_participants
         | none => ((0, 0), (0, 0))))
  | .tick n1 n2 n3 n4 => Session.tick L s n1 n2 n3 n4
  | .deploy tok piece pos n1 n2 n3 n4 n5 n6 n7 =>
    match lookupA s.user_ids tok with
    | none => s
    | some uid =>
      match s.onGame (fun g => Game.deploy_piece L g uid piece pos n1 n2 n3) with
      | (s, false) => s
      | (s, true) =>
        Session.tick L (s.notify_all uid (.pieceDeployed true piece pos)) n4 n5 n6 n7
  | .move tok change n1 n2 n3 n4 n5 n6 n7 =>
    match lookupA s.user_ids tok with
    | none => s
    | some uid =>
      match s.onGame (fun g => Game.move_piece L g uid change n1 n2 n3) with
      | (s, false) => s
      | (s, true) =>
        Session.tick L (s.notify_all uid (.pieceMoved true change)) n4 n5 n6 n7
  | .promote tok change up n1 n2 n3 n4 n5 n6 n7 =>
    match lookupA s.user_ids tok with
    | none => s
    | some uid =>
      match s.onGame (fun g => Game.promote_piece L g uid change up n1 n2 n3) with
      | (s, false) => s
      | (s, true) =>
        Session.tick L (s.notify_all uid (.piecePromoted true change up)) n4 n5 n6 n7
  | .resign tok =>
    match lookupA s.user_ids tok with
    | none => s
    | some uid =>
      match s.onGame (fun g => Game.resign L g uid) with
      | (s, false) => s
      | (s, true) => Session.check_end_conditions L s
  | .notify caused ev => s.notify_all caused ev
  | .delete tok =>
    if s.is_owner tok then { s with rxClosed := true } else s

/-- `n` consecutive `notify_all` emissions of the same event. -/
def notifyIter {σ : Type} (s : Session σ) (caused_by : Nat) (ev : EventType) :
    Nat → Session σ
  | 0 => s
  | n + 1 => (notifyIter s caused_by ev n).notify_all caused_by ev

/-- A concrete everything-succeeds oracle instance over the trivial state,
used to evaluate the model on closed inputs (white to move on both boards,
cross-board winner `Continue`). -/
def oracleStub : LogicModel Unit :=
  { init := ()
    getWhiteActive := fun _ _ => true
    deployPiece := fun _ _ _ _ _ _ => some ()
    movemaker := fun _ _ _ _ _ _ => some ()
    setPromotion := fun _ _ _ => ()
    resignL := fun _ _ _ => ()
    getWinner := fun _ _ => .Continue
    parseChange := fun _ => some (0, 0, 1, 1) }

/-- A concrete oracle instance that rejects every move and deployment. -/
def rejectOracle : LogicModel Unit :=
  { init := ()
    getWhiteActive := fun _ _ => true
    deployPiece := fun _ _ _ _ _ _ => none
    movemaker := fun _ _ _ _ _ _ => none
    setPromotion := fun _ _ _ => ()
    resignL := fun _ _ _ => ()
    getWinner := fun _ _ => .Continue
    parseChange := fun _ => some (0, 0, 1, 1) }

/-- A concrete active game for closed evaluations: participants
`((1, 2), (3, 4))`, both clocks anchored at 0 and running, full remaining
time. -/
def gameStub : Game Unit :=
  { active_participants := ((1, 2), (3, 4))
    clock := ((0, false), (0, false))
    remaining_time := ((GAME_DURATION, GAME_DURATION), (GAME_DURATION, GAME_DURATION))
    logic := () }

/-- `oracleStub` with cross-board winner `W1`. -/
def oracleW1 : LogicModel Unit :=
  { oracleStub with getWinner := fun _ _ => .W1 }

/-- A concrete session with an active game (`Started{7, gameStub}`) and two
registered users, for closed evaluations. -/
def sessionStub : Session Unit :=
  { user_ids := []
    users := [(1, ⟨['a'], 0⟩), (2, ⟨['b'], 2⟩)]
    participants := []
    queue := []
    game := .started 7 gameStub
    failed_broadcasts := 0
    hasReceiver := true
    rxClosed := false
    events := []
    maxUser := 20
    maxParticipant := 5 }

/-- A concrete lobby session ready to start: the owner's token is `5`, four
participants are listed, the queue is empty and the state is `Starting`. -/
def sessionLobbyStub : Session Unit :=
  { user_ids := [(5, 0)]
    users := []
    participants := [1, 2, 3, 4]
    queue := []
    game := .starting
    failed_broadcasts := 0
    hasReceiver := true
    rxClosed := false
    events := []
    maxUser := 20
    maxParticipant := 5 }

/-! ## Theorems -/

/-- C8 counterexample: `parse_pos` accepts strings longer than two bytes —
`"a0a"` (bytes `[97, 48, 97]`) parses to `(0, 0)` although it does not
consist of exactly two bytes, so the claimed "for every other string it
returns None" is false. -/
theorem parse_pos_three_bytes_counterexample :
    parse_pos [97, 48, 97] = some (0, 0) ∧ ([97, 48, 97] : List Nat).length ≠ 2 := by
  decide

/-- C8 (amended): `parse_pos(s)` returns `some (col, row)` exactly when `s`
has at least two bytes, the first in `97..=104` (`'a'..='h'`, giving
`col = byte - 97`) and the second in `48..=55` (`'0'..='7'`, giving
`row = byte - 48`); bytes beyond the first two are ignored, and any
returned coordinates lie in `0..8 × 0..8`. -/
theorem parse_pos_spec (s : List Nat) (col row : Nat) :
    (parse_pos s = some (col, row) ↔
      ∃ b0 b1 rest, s = b0 :: b1 :: rest ∧
        97 ≤ b0 ∧ b0 ≤ 104 ∧ 48 ≤ b1 ∧ b1 ≤ 55 ∧
        col = b0 - 97 ∧ row = b1 - 48) ∧
    (parse_pos s = some (col, row) → col < 8 ∧ row < 8) := by
  constructor
  · constructor
    · intro h
      match s with
      | [] => simp [parse_pos] at h
      | [b0] => simp [parse_pos] at h
      | b0 :: b1 :: rest =>
        refine ⟨b0, b1, rest, rfl, ?_⟩
        simp only [parse_pos] at h
        split at h
        · rename_i hc
          obtain ⟨h1, h2, h3, h4⟩ := hc
          obtain ⟨hcol, hrow⟩ := Prod.mk.injEq .. ▸ Option.some.injEq .. ▸ h
          exact ⟨h1, h2, h3, h4, hcol.symm, hrow.symm⟩
        · exact absurd h (by simp)
    · rintro ⟨b0, b1, rest, rfl, h1, h2, h3, h4, rfl, rfl⟩
      simp [parse_pos, h1, h2, h3, h4]
  · intro h
    match s with
    | [] => simp [parse_pos] at h
    | [b0] => simp [parse_pos] at h
    | b0 :: b1 :: rest =>
      simp only [parse_pos] at h
      split at h
      · rename_i hc
        obtain ⟨hcol, hrow⟩ := Prod.mk.injEq .. ▸ Option.some.injEq .. ▸ h
        omega
      · exact absurd h (by simp)

/-- C8 witness: the amended characterization evaluated at the concrete
input `"a0"` (bytes `[97, 48]`). -/
theorem parse_pos_spec_witness :
    parse_pos [97, 48] = some (0, 0) ∧ (0 : Nat) < 8 := by
  refine ⟨?_, ?_⟩
  · exact (parse_pos_spec [97, 48] 0 0).1.mpr
      ⟨97, 48, [], rfl, by decide, by decide, by decide, by decide, rfl, rfl⟩
  · exact ((parse_pos_spec [97, 48] 0 0).2 (by decide)).1

/-- C9: a display name passes validation — `validate_user_name` returns
`true` and `User::new` returns `Some` — if and only if it is non-empty and
every character is alphabetic or whitespace (the Unicode classes abstracted
as `ia` / `iw`); there is no other constraint. -/
theorem user_name_validation_spec (ia iw : Char → Bool) (name : List Char) :
    (validate_user_name ia iw name = true ∧ (User.new ia iw name).isSome) ↔
      (name ≠ [] ∧ ∀ c ∈ name, ia c = true ∨ iw c = true) := by
  unfold validate_user_name User.new
  rcases name with _ | ⟨c0, cs⟩
  · simp
  · constructor
    · rintro ⟨hv, _⟩
      simp only [Bool.and_eq_true, List.all_eq_true, Bool.or_eq_true] at hv
      exact ⟨by simp, hv.2⟩
    · rintro ⟨-, hall⟩
      refine ⟨?_, ?_⟩
      · simp only [Bool.and_eq_true, List.all_eq_true, Bool.or_eq_true]
        exact ⟨by simp, hall⟩
      · rw [if_neg]
        · rfl
        · intro hany
          simp only [List.any_eq_true, Bool.and_eq_true, Bool.not_eq_true'] at hany
          obtain ⟨c, hc, hia, hiw⟩ := hany
          rcases hall c hc with h | h
          · rw [h] at hia; cases hia
          · rw [h] at hiw; cases hiw

/-- C9 witness: the equivalence evaluated at the concrete all-alphabetic
name `"ab"` with the ASCII character classes. -/
theorem user_name_validation_spec_witness :
    validate_user_name Char.isAlpha Char.isWhitespace ['a', 'b'] = true ∧
      (User.new Char.isAlpha Char.isWhitespace ['a', 'b']).isSome := by
  exact (user_name_validation_spec Char.isAlpha Char.isWhitespace ['a', 'b']).mpr
    ⟨by decide, by decide⟩

/-- C4: `create_pairings` is a (deterministic) function of `n`; at `n = 4`
it returns exactly the 24-element queue hard-coded in `create_pairings_wr`,
with no duplicates, whose members are exactly the tuples of four pairwise
distinct participants of `{1, 2, 3, 4}` — every unordered team split with
both in-team color orderings and both team-side orderings, once each. -/
theorem create_pairings_four_spec :
    create_pairings 4 = create_pairings_wr 4 ∧
    (create_pairings 4).length = 24 ∧
    (create_pairings 4).Nodup ∧
    (∀ p ∈ create_pairings 4,
      p.1.1 ∈ [1, 2, 3, 4] ∧ p.1.2 ∈ [1, 2, 3, 4] ∧
      p.2.1 ∈ [1, 2, 3, 4] ∧ p.2.2 ∈ [1, 2, 3, 4] ∧
      p.1.1 ≠ p.1.2 ∧ p.1.1 ≠ p.2.1 ∧ p.1.1 ≠ p.2.2 ∧
      p.1.2 ≠ p.2.1 ∧ p.1.2 ≠ p.2.2 ∧ p.2.1 ≠ p.2.2) ∧
    (∀ a ∈ [1, 2, 3, 4], ∀ b ∈ [1, 2, 3, 4], ∀ c ∈ [1, 2, 3, 4],
      ∀ d ∈ [1, 2, 3, 4],
      a ≠ b → a ≠ c → a ≠ d → b ≠ c → b ≠ d → c ≠ d →
      ((a, b), (c, d)) ∈ create_pairings 4) := by
  refine ⟨by decide, by decide, by decide, by decide, by decide⟩

/-- C4 witness: the characterization applied at the concrete pairing
`((3, 4), (1, 2))`. -/
theorem create_pairings_four_spec_witness :
    ((3, 4), (1, 2)) ∈ create_pairings 4 := by
  exact create_pairings_four_spec.2.2.2.2 3 (by decide) 4 (by decide) 1 (by decide)
    2 (by decide) (by decide) (by decide) (by decide) (by decide) (by decide)
    (by decide)

/-- `notify_all` unfolded to one record update. -/
theorem notify_all_eq {σ : Type} (s : Session σ) (c : Nat) (e : EventType) :
    s.notify_all c e =
      { s with
          events := s.events ++ [(c, e)]
          failed_broadcasts := if s.hasReceiver then 0 else s.failed_broadcasts + 1
          rxClosed :=
            if BROADCAST_MAX_FAILURE <
                (if s.hasReceiver then 0 else s.failed_broadcasts + 1) then
              true
            else s.rxClosed } := by
  obtain ⟨ui, us, pa, qu, ga, fb, hr, rc, evs, mu, mp⟩ := s
  unfold Session.notify_all
  cases hr <;> simp only [Bool.false_eq_true, if_false, if_true, ite_true, ite_false] <;>
    split <;> rename_i h <;> simp [h]

/-- `HashMap` model: inserting then looking up the same key. -/
theorem lookupA_insertA_self {α : Type} (m : List (Nat × α)) (k : Nat) (v : α) :
    lookupA (insertA m k v) k = some v := by
  induction m with
  | nil => simp [insertA, lookupA]
  | cons kv rest ih =>
    obtain ⟨a, w⟩ := kv
    by_cases h : a = k <;> simp [insertA, lookupA, h, ih]

/-- `HashMap` model: insertion grows the map exactly when the key is new. -/
theorem insertA_length {α : Type} (m : List (Nat × α)) (k : Nat) (v : α) :
    (insertA m k v).length =
      if (lookupA m k).isSome then m.length else m.length + 1 := by
  induction m with
  | nil => simp [insertA, lookupA]
  | cons kv rest ih =>
    obtain ⟨a, w⟩ := kv
    by_cases h : a = k <;> simp [insertA, lookupA, h, ih] <;> split <;> simp

/-- C7: every broadcast emission appends the event, resets
`failed_broadcasts` to 0 on success, increments it by exactly 1 on failure
(failure is modelled as the absence of a receiver, the only way the tokio
broadcast `send` fails), and closes the command endpoint exactly when the
counter exceeds `BROADCAST_MAX_FAILURE = 20` afterwards; hence starting
from a zeroed counter, `n` consecutive receiver-less broadcasts leave the
counter at `n` and the endpoint is closed iff `n ≥ 21`. -/
theorem notify_all_spec {σ : Type} (s : Session σ) (caused_by : Nat)
    (ev : EventType) :
    ((s.notify_all caused_by ev).events = s.events ++ [(caused_by, ev)]) ∧
    (s.hasReceiver = true → (s.notify_all caused_by ev).failed_broadcasts = 0) ∧
    (s.hasReceiver = false →
      (s.notify_all caused_by ev).failed_broadcasts = s.failed_broadcasts + 1) ∧
    ((s.notify_all caused_by ev).rxClosed =
      (s.rxClosed ||
        decide (BROADCAST_MAX_FAILURE < (s.notify_all caused_by ev).failed_broadcasts))) ∧
    (∀ n : Nat, s.failed_broadcasts = 0 → s.hasReceiver = false →
      s.rxClosed = false →
      (notifyIter s caused_by ev n).failed_broadcasts = n ∧
      (notifyIter s caused_by ev n).rxClosed =
        decide (BROADCAST_MAX_FAILURE + 1 ≤ n)) := by
  refine ⟨?_, ?_, ?_, ?_, ?_⟩
  · rw [notify_all_eq]
  · intro h; rw [notify_all_eq]; simp [h]
  · intro h; rw [notify_all_eq]; simp [h]
  · rw [notify_all_eq]
    by_cases hr : s.hasReceiver = true <;> simp only [hr, if_true, if_false]
    · simp [BROADCAST_MAX_FAILURE]
    · by_cases h : BROADCAST_MAX_FAILURE < s.failed_broadcasts + 1 <;>
        simp [h, Bool.or_comm]
  · intro n h0 hr hc
    have key : ∀ m : Nat,
        (notifyIter s caused_by ev m).failed_broadcasts = m ∧
        (notifyIter s caused_by ev m).rxClosed =
          decide (BROADCAST_MAX_FAILURE + 1 ≤ m) ∧
        (notifyIter s caused_by ev m).hasReceiver = false := by
      intro m
      induction m with
      | zero => simpa [notifyIter, h0, hc, BROADCAST_MAX_FAILURE] using hr
      | succ k ih =>
        obtain ⟨ihf, ihc, ihr⟩ := ih
        simp only [notifyIter]
        rw [notify_all_eq]
        simp only [ihr, ihf, ihc, if_false, Bool.false_eq_true]
        refine ⟨by trivial, ?_, by trivial⟩
        by_cases h : BROADCAST_MAX_FAILURE < k + 1
        · rw [if_pos h, eq_comm, decide_eq_true_eq]
          simp only [BROADCAST_MAX_FAILURE] at h ⊢
          omega
        · rw [if_neg h]
          simp only [BROADCAST_MAX_FAILURE] at h ⊢
          have h1 : ¬(20 + 1 ≤ k) := by omega
          have h2 : ¬(20 + 1 ≤ k + 1) := by omega
          simp [h1, h2]
    exact ⟨(key n).1, (key n).2.1⟩

/-- C7 witness: from a zeroed counter with no receiver, 21 consecutive
failed broadcasts close the endpoint while 20 do not, and a successful
broadcast resets the counter. -/
theorem notify_all_spec_witness :
    ((notifyIter
        { user_ids := [], users := [], participants := [], queue := [],
          game := .starting (σ := Unit), failed_broadcasts := 0,
          hasReceiver := false, rxClosed := false, events := [],
          maxUser := 20, maxParticipant := 5 } 0 .periodic 21).rxClosed = true) ∧
    ((notifyIter
        { user_ids := [], users := [], participants := [], queue := [],
          game := .starting (σ := Unit), failed_broadcasts := 0,
          hasReceiver := false, rxClosed := false, events := [],
          maxUser := 20, maxParticipant := 5 } 0 .periodic 20).rxClosed = false) ∧
    (Session.notify_all
        { user_ids := [], users := [], participants := [], queue := [],
          game := .starting (σ := Unit), failed_broadcasts := 7,
          hasReceiver := true, rxClosed := false, events := [],
          maxUser := 20, maxParticipant := 5 } 0 .periodic).failed_broadcasts = 0 := by
  refine ⟨?_, ?_, ?_⟩
  · rw [((notify_all_spec _ 0 .periodic).2.2.2.2 21 rfl rfl rfl).2]; rfl
  · rw [((notify_all_spec _ 0 .periodic).2.2.2.2 20 rfl rfl rfl).2]; rfl
  · exact (notify_all_spec _ 0 .periodic).2.1 rfl

/-- C10: a freshly spawned session has empty user and auth-token maps (the
owner appears only when the first `Create`/`Join` command is handled), and
`add_user` assigns each new user the id `user_ids.len()` — so for fresh
tokens the first user added gets `UserId 0` (the owner id) and the k-th
gets `k - 1`. -/
theorem spawn_add_user_spec (σ : Type) (ia iw : Char → Bool) :
    (∀ reg sid name hr mu mp out,
      Sessions.spawn σ ia iw reg sid name hr mu mp = some out →
      out.2.user_ids = [] ∧ out.2.users = [] ∧ out.1 = insertA reg sid out.2) ∧
    (∀ (s : Session σ) name tok s' uid tok',
      Session.add_user ia iw s name tok = (s', some (uid, tok')) →
      lookupA s.user_ids tok = none →
      s.user_ids.length < 256 →
      uid = s.user_ids.length ∧ tok' = tok ∧
      s'.user_ids.length = s.user_ids.length + 1 ∧
      lookupA s'.users uid = some ⟨name, 0⟩) := by
  constructor
  · intro reg sid name hr mu mp out h
    unfold Sessions.spawn Session.new at h
    split at h
    · cases h
    · rename_i s hs
      split at hs
      · cases hs
      · cases hs
        cases h
        exact ⟨rfl, rfl, rfl⟩
  · intro s name tok s' uid tok' h hfresh hlen
    unfold Session.add_user at h
    split at h
    · cases h
    · rename_i hok
      split at h
      · cases h
      · rename_i u hu
        have huser : u = ⟨name, 0⟩ := by
          unfold User.new at hu
          split at hu
          · cases hu
          · cases hu; rfl
        cases h
        refine ⟨Nat.mod_eq_of_lt hlen, rfl, ?_, ?_⟩
        · rw [insertA_length, hfresh]; rfl
        · simp only [Nat.mod_eq_of_lt hlen, huser]
          exact lookupA_insertA_self ..

/-- C10 witness: spawning with a valid owner name yields empty maps, and
the first `add_user` on the fresh session assigns `UserId 0`. -/
theorem spawn_add_user_spec_witness :
    (({ user_ids := [], users := [], participants := [], queue := [],
        game := .starting, failed_broadcasts := 0, hasReceiver := true,
        rxClosed := false, events := [], maxUser := 20,
        maxParticipant := 5 } : Session Unit)).user_ids = [] ∧
    (0 : Nat) = ([] : List (Nat × Nat)).length ∧
    lookupA [((0 : Nat), (⟨['b'], 0⟩ : User))] 0 = some ⟨['b'], 0⟩ := by
  refine ⟨?_, ?_, ?_⟩
  · exact ((spawn_add_user_spec Unit Char.isAlpha Char.isWhitespace).1 [] 1 ['a']
      true 20 5
      ([(1, ⟨[], [], [], [], .starting, 0, true, false, [], 20, 5⟩)],
        ⟨[], [], [], [], .starting, 0, true, false, [], 20, 5⟩) rfl).1
  · exact ((spawn_add_user_spec Unit Char.isAlpha Char.isWhitespace).2
      ⟨[], [], [], [], .starting, 0, true, false, [], 20, 5⟩ ['b'] 42
      ⟨[(42, 0)], [(0, ⟨['b'], 0⟩)], [], [], .starting, 0, true, false, [], 20, 5⟩
      0 42 rfl rfl (by decide)).1
  · exact ((spawn_add_user_spec Unit Char.isAlpha Char.isWhitespace).2
      ⟨[], [], [], [], .starting, 0, true, false, [], 20, 5⟩ ['b'] 42
      ⟨[(42, 0)], [(0, ⟨['b'], 0⟩)], [], [], .starting, 0, true, false, [], 20, 5⟩
      0 42 rfl rfl (by decide)).2.2.2

/-- `rtLE` is reflexive. -/
theorem rtLE_refl {σ : Type} (g : Game σ) : rtLE g g :=
  ⟨le_refl _, le_refl _, le_refl _, le_refl _⟩

/-- `rtLE` is transitive. -/
theorem rtLE_trans {σ : Type} {a b c : Game σ} (h1 : rtLE a b) (h2 : rtLE b c) :
    rtLE a c :=
  ⟨h1.1.trans h2.1, h1.2.1.trans h2.2.1, h1.2.2.1.trans h2.2.2.1,
    h1.2.2.2.trans h2.2.2.2⟩

/-- `refresh_clock` leaves the remaining-time table untouched. -/
theorem refresh_clock_remaining {σ : Type} (g : Game σ) (b : Bool) (n : Nat) :
    (g.refresh_clock b n).remaining_time = g.remaining_time := by
  cases b <;> rfl

/-- Replacing the oracle state leaves the remaining-time table untouched. -/
theorem setLogic_remaining {σ : Type} (g : Game σ) (l : σ) :
    ({ g with logic := l } : Game σ).remaining_time = g.remaining_time := rfl

/-- `update_remaining_time` never increases any remaining-time cell. -/
theorem update_remaining_time_le {σ : Type} (L : LogicModel σ) (g : Game σ)
    (b : Bool) (n : Nat) : rtLE (Game.update_remaining_time L g b n) g := by
  obtain ⟨ap, ⟨⟨c1, p1⟩, c2, p2⟩, ⟨⟨r1, r2⟩, r3, r4⟩, lg⟩ := g
  unfold Game.update_remaining_time Game.setRT Game.getRT rtLE
  cases b <;> dsimp only
  · cases p2
    · cases L.getWhiteActive lg false <;>
        exact ⟨le_refl _, by simp [Nat.sub_le], by simp [Nat.sub_le], by simp [Nat.sub_le]⟩
    · exact ⟨le_refl _, le_refl _, le_refl _, le_refl _⟩
  · cases p1
    · cases L.getWhiteActive lg true <;>
        exact ⟨by simp [Nat.sub_le], by simp [Nat.sub_le], by simp [Nat.sub_le], le_refl _⟩
    · exact ⟨le_refl _, le_refl _, le_refl _, le_refl _⟩

/-- The reconciliation prefix of every board command never increases any
remaining-time cell. -/
theorem updRef_rtLE {σ : Type} (L : LogicModel σ) (g : Game σ) (b : Bool)
    (n1 n2 : Nat) :
    rtLE ((Game.update_remaining_time L g b n1).refresh_clock b n2) g := by
  have h := update_remaining_time_le L g b n1
  have e := refresh_clock_remaining (Game.update_remaining_time L g b n1) b n2
  unfold rtLE at *
  rw [e]
  exact h

/-- `deploy_piece` never increases any remaining-time cell, whether it
succeeds or fails. -/
theorem deploy_piece_rtLE {σ : Type} (L : LogicModel σ) (g : Game σ)
    (uid : Nat) (piece : List Char) (pos : List Nat) (n1 n2 n3 : Nat) :
    rtLE (Game.deploy_piece L g uid piece pos n1 n2 n3).1 g := by
  unfold Game.deploy_piece
  rcases hbc : Game.board_and_color g uid with _ | ⟨b1, w⟩
  · exact rtLE_refl g
  · rcases hpp : parse_piece piece with _ | pc
    · exact rtLE_refl g
    · rcases hps : parse_pos pos with _ | ⟨col, row⟩
      · exact rtLE_refl g
      · dsimp only
        rcases ho : L.deployPiece
            ((Game.update_remaining_time L g b1 n1).refresh_clock b1 n2).logic
            b1 w pc row col with _ | l
        · exact updRef_rtLE L g b1 n1 n2
        · have e1 := refresh_clock_remaining
            ({ (Game.update_remaining_time L g b1 n1).refresh_clock b1 n2 with
                logic := l } : Game σ) b1 n3
          have h := updRef_rtLE L g b1 n1 n2
          unfold rtLE at *
          rw [e1]
          exact h

/-- `move_piece` never increases any remaining-time cell, whether it
succeeds or fails. -/
theorem move_piece_rtLE {σ : Type} (L : LogicModel σ) (g : Game σ)
    (uid : Nat) (change : List Char) (n1 n2 n3 : Nat) :
    rtLE (Game.move_piece L g uid change n1 n2 n3).1 g := by
  unfold Game.move_piece
  rcases hbc : Game.board_and_color g uid with _ | ⟨b1, w⟩
  · exact rtLE_refl g
  · dsimp only
    by_cases hw : L.getWhiteActive g.logic b1 ≠ w
    · rw [if_pos hw]; exact rtLE_refl g
    · rw [if_neg hw]
      rcases hpc : L.parseChange change with _ | ⟨i, j, i2, j2⟩
      · exact rtLE_refl g
      · dsimp only
        rcases ho : L.movemaker
            ((Game.update_remaining_time L g b1 n1).refresh_clock b1 n2).logic
            b1 i j i2 j2 with _ | l
        · exact updRef_rtLE L g b1 n1 n2
        · have e1 := refresh_clock_remaining
            ({ (Game.update_remaining_time L g b1 n1).refresh_clock b1 n2 with
                logic := l } : Game σ) b1 n3
          have h := updRef_rtLE L g b1 n1 n2
          unfold rtLE at *
          rw [e1]
          exact h

/-- The tick body never increases any remaining-time cell. -/
theorem tick_body_rtLE {σ : Type} (L : LogicModel σ) (g : Game σ)
    (n1 n2 n3 n4 : Nat) :
    rtLE (applyGameOp L g (.tick n1 n2 n3 n4)) g := by
  unfold applyGameOp
  have h1 := updRef_rtLE L g true n1 n2
  have h2 := updRef_rtLE L ((Game.update_remaining_time L g true n1).refresh_clock true n2)
    false n3 n4
  exact rtLE_trans h2 h1

/-- C2 counterexample: a successful `Promote` at zero elapsed time strictly
increases the mover's remaining time (the `PROMOTE_ADDED_TIME` bonus), so
remaining time is not non-increasing across successful Promote commands. -/
theorem promote_increases_time_counterexample :
    (Game.promote_piece oracleStub gameStub 1 ['a'] ['q'] 0 0 0).2 = true ∧
    gameStub.remaining_time.1.1 <
      (Game.promote_piece oracleStub gameStub 1 ['a'] ['q'] 0 0 0).1.remaining_time.1.1 := by
  constructor
  · rfl
  · show (300 : Nat) < 303
    decide

/-- C2 (amended): every remaining-time cell is initialized to
`GAME_DURATION` by `Game::new` (the transition into `Started`) and is
monotonically non-increasing across every sequence of ticks and `Deploy` /
`Move` board commands (successful or not); a successful `Promote` can
instead increase the mover's cell by up to the `PROMOTE_ADDED_TIME`
bonus. -/
theorem remaining_time_monotone_spec {σ : Type} (L : LogicModel σ) :
    (∀ ap now, (Game.new L ap now).remaining_time =
      ((GAME_DURATION, GAME_DURATION), (GAME_DURATION, GAME_DURATION))) ∧
    (∀ (g : Game σ) (op : GameOp), rtLE (applyGameOp L g op) g) ∧
    (∀ (g : Game σ) (ops : List GameOp), rtLE (ops.foldl (applyGameOp L) g) g) := by
  have step : ∀ (g : Game σ) (op : GameOp), rtLE (applyGameOp L g op) g := by
    intro g op
    cases op with
    | tick n1 n2 n3 n4 => exact tick_body_rtLE L g n1 n2 n3 n4
    | deploy uid piece pos n1 n2 n3 => exact deploy_piece_rtLE L g uid piece pos n1 n2 n3
    | move uid change n1 n2 n3 => exact move_piece_rtLE L g uid change n1 n2 n3
  refine ⟨fun ap now => rfl, step, ?_⟩
  intro g ops
  induction ops generalizing g with
  | nil => exact rtLE_refl g
  | cons op rest ih =>
    exact rtLE_trans (ih (applyGameOp L g op)) (step g op)

/-- C3 counterexample: a `Move` command rejected by the rules oracle still
deducts the elapsed time from the side to move (the clock reconciliation
runs before the oracle call), so the game state is not exactly unchanged on
every failed board command: at 5 time units past the anchor the mover's
remaining time drops from 300 to 295 although the command fails. -/
theorem board_failure_mutates_counterexample :
    (Game.move_piece rejectOracle gameStub 1 ['x'] 5 5 5).2 = false ∧
    (Game.move_piece rejectOracle gameStub 1 ['x'] 5 5 5).1.remaining_time ≠
      gameStub.remaining_time := by
  constructor
  · rfl
  · show ((295, 300), (300, 300)) ≠ (((300, 300), (300, 300)) :
      (Nat × Nat) × (Nat × Nat))
    decide

/-- C3 (amended): a board command that fails before the oracle is consulted
— the caller is not an active participant, it is not the caller's turn
(Move/Promote), or the piece/square/change fails to parse — leaves the game
state exactly unchanged; when instead the rules oracle rejects the
operation, the already-performed clock reconciliation persists: the result
is exactly `refresh_clock ∘ update_remaining_time` of the original state
(for `Promote` additionally with the promotion target set and the
`PROMOTE_ADDED_TIME` bonus applied first). -/
theorem board_command_failure_spec {σ : Type} (L : LogicModel σ) (g : Game σ)
    (uid : Nat) (piece : List Char) (pos : List Nat) (change upg : List Char)
    (n1 n2 n3 : Nat) :
    (Game.board_and_color g uid = none →
      Game.deploy_piece L g uid piece pos n1 n2 n3 = (g, false) ∧
      Game.move_piece L g uid change n1 n2 n3 = (g, false) ∧
      Game.promote_piece L g uid change upg n1 n2 n3 = (g, false)) ∧
    (parse_piece piece = none →
      Game.deploy_piece L g uid piece pos n1 n2 n3 = (g, false)) ∧
    (parse_pos pos = none →
      Game.deploy_piece L g uid piece pos n1 n2 n3 = (g, false)) ∧
    (∀ b w, Game.board_and_color g uid = some (b, w) →
      L.getWhiteActive g.logic b ≠ w →
      Game.move_piece L g uid change n1 n2 n3 = (g, false) ∧
      Game.promote_piece L g uid change upg n1 n2 n3 = (g, false)) ∧
    (∀ b w, Game.board_and_color g uid = some (b, w) →
      L.parseChange change = none →
      Game.move_piece L g uid change n1 n2 n3 = (g, false) ∧
      Game.promote_piece L g uid change upg n1 n2 n3 = (g, false)) ∧
    (∀ b w, Game.board_and_color g uid = some (b, w) →
      parse_piece upg = none →
      Game.promote_piece L g uid change upg n1 n2 n3 = (g, false)) ∧
    (∀ b w pc col row, Game.board_and_color g uid = some (b, w) →
      parse_piece piece = some pc → parse_pos pos = some (col, row) →
      L.deployPiece ((Game.update_remaining_time L g b n1).refresh_clock b n2).logic
          b w pc row col = none →
      Game.deploy_piece L g uid piece pos n1 n2 n3 =
        ((Game.update_remaining_time L g b n1).refresh_clock b n2, false)) ∧
    (∀ b w i j i2 j2, Game.board_and_color g uid = some (b, w) →
      L.getWhiteActive g.logic b = w →
      L.parseChange change = some (i, j, i2, j2) →
      L.movemaker ((Game.update_remaining_time L g b n1).refresh_clock b n2).logic
          b i j i2 j2 = none →
      Game.move_piece L g uid change n1 n2 n3 =
        ((Game.update_remaining_time L g b n1).refresh_clock b n2, false)) ∧
    (∀ b w i j i2 j2 up, Game.board_and_color g uid = some (b, w) →
      L.getWhiteActive g.logic b = w →
      L.parseChange change = some (i, j, i2, j2) →
      parse_piece upg = some up →
      L.movemaker
          ((Game.update_remaining_time L
              (Game.extend_remaining_time L
                ({ g with logic := L.setPromotion g.logic b up } : Game σ)
                b PROMOTE_ADDED_TIME) b n1).refresh_clock b n2).logic
          b i j i2 j2 = none →
      Game.promote_piece L g uid change upg n1 n2 n3 =
        ((Game.update_remaining_time L
            (Game.extend_remaining_time L
              ({ g with logic := L.setPromotion g.logic b up } : Game σ)
              b PROMOTE_ADDED_TIME) b n1).refresh_clock b n2, false)) := by
  refine ⟨?_, ?_, ?_, ?_, ?_, ?_, ?_, ?_, ?_⟩
  · intro h
    refine ⟨?_, ?_, ?_⟩ <;>
      simp only [Game.deploy_piece, Game.move_piece, Game.promote_piece, h]
  · intro h
    simp only [Game.deploy_piece, h]
    rcases Game.board_and_color g uid with _ | ⟨b1, w⟩ <;> rfl
  · intro h
    simp only [Game.deploy_piece, h]
    rcases Game.board_and_color g uid with _ | ⟨b1, w⟩ <;>
      rcases parse_piece piece with _ | pc <;> rfl
  · intro b w hbc hw
    constructor <;>
      simp only [Game.move_piece, Game.promote_piece, hbc, if_pos hw]
  · intro b w hbc hpc
    by_cases hw : L.getWhiteActive g.logic b ≠ w
    · constructor <;>
        simp only [Game.move_piece, Game.promote_piece, hbc, if_pos hw]
    · constructor <;>
        simp only [Game.move_piece, Game.promote_piece, hbc, if_neg hw, hpc]
  · intro b w hbc hup
    by_cases hw : L.getWhiteActive g.logic b ≠ w
    · simp only [Game.promote_piece, hbc, if_pos hw]
    · simp only [Game.promote_piece, hbc, if_neg hw]
      rcases L.parseChange change with _ | ⟨i, j, i2, j2⟩
      · rfl
      · simp only [hup]
  · intro b w pc col row hbc hpp hps ho
    simp only [Game.deploy_piece, hbc, hpp, hps, ho]
  · intro b w i j i2 j2 hbc hw hpc ho
    simp only [Game.move_piece, hbc, hpc, ho]
    rw [if_neg (by simp [hw])]
  · intro b w i j i2 j2 up hbc hw hpc hup ho
    simp only [Game.promote_piece, hbc, hpc, hup, ho]
    rw [if_neg (by simp [hw])]

/-- C3 witness: the pre-oracle failure cases evaluated on concrete inputs —
an inactive caller (id 9) and an unparsable square leave the concrete game
exactly unchanged. -/
theorem board_command_failure_spec_witness :
    Game.move_piece oracleStub gameStub 9 ['x'] 1 2 3 = (gameStub, false) ∧
    Game.deploy_piece oracleStub gameStub 1 ['q'] [0, 0] 1 2 3 = (gameStub, false) := by
  constructor
  · exact ((board_command_failure_spec oracleStub gameStub 9 ['q'] [0, 0] ['x'] ['q']
      1 2 3).1 rfl).2.1
  · exact (board_command_failure_spec oracleStub gameStub 1 ['q'] [0, 0] ['x'] ['q']
      1 2 3).2.2.1 rfl

/-- Looking up after a score bump: the bumped key's user gains one point,
every other key is untouched. -/
theorem lookupA_bumpScore (m : List (Nat × User)) (uid k : Nat) :
    lookupA (bumpScore m uid) k =
      if k = uid then
        (lookupA m k).map (fun u => { u with score := u.score + 1 })
      else lookupA m k := by
  induction m with
  | nil => simp only [bumpScore, List.map_nil, lookupA, Option.map_none]; split <;> rfl
  | cons kv rest ih =>
    obtain ⟨a, u⟩ := kv
    by_cases ha : a = uid
    · subst ha
      by_cases hk : a = k
      · subst hk
        simp [bumpScore, lookupA]
      · have hk' : ¬k = a := fun h => hk h.symm
        simp [bumpScore, lookupA, hk, hk', ih]
    · by_cases hk : a = k
      · subst hk
        have ha' : ¬a = uid := ha
        simp [bumpScore, lookupA, ha']
      · simp [bumpScore, lookupA, ha, hk, ih]

/-- C1: with an active game `Started{id, game}`, the winner is computed by
flag-fall priority — white to move on board 1 with `(board1, white)` at zero
gives `B1`; else black to move on board 2 with `(board2, black)` at zero
gives `W2`; else black to move on board 1 with `(board1, black)` at zero
gives `W1`; else white to move on board 2 with `(board2, white)` at zero
gives `B2`; else the oracle's cross-board winner — and the outcome is
applied as: on `W1`/`B2` both team-1 members gain exactly one point, the
state becomes `Ended{id}` and `GameEnded` with team 1 as winners is
emitted; on `B1`/`W2` symmetrically for team 2; on `P` the state becomes
`Ended{id}` with `winners = None` and no score changes; on `Continue` the
session is unchanged. -/
theorem check_end_conditions_spec {σ : Type} (L : LogicModel σ)
    (s : Session σ) (i : Nat) (g : Game σ) (u1 u2 u3 u4 : Nat)
    (hg : s.game = .started i g)
    (hap : g.active_participants = ((u1, u2), (u3, u4)))
    (h12 : u1 ≠ u2) (h34 : u3 ≠ u4) :
    ((L.getWhiteActive g.logic true = true ∧ g.remaining_time.1.1 = 0) →
      Game.winner L g = .B1) ∧
    (¬(L.getWhiteActive g.logic true = true ∧ g.remaining_time.1.1 = 0) →
      (L.getWhiteActive g.logic false = false ∧ g.remaining_time.1.2 = 0) →
      Game.winner L g = .W2) ∧
    (¬(L.getWhiteActive g.logic true = true ∧ g.remaining_time.1.1 = 0) →
      ¬(L.getWhiteActive g.logic false = false ∧ g.remaining_time.1.2 = 0) →
      (L.getWhiteActive g.logic true = false ∧ g.remaining_time.2.1 = 0) →
      Game.winner L g = .W1) ∧
    (¬(L.getWhiteActive g.logic true = true ∧ g.remaining_time.1.1 = 0) →
      ¬(L.getWhiteActive g.logic false = false ∧ g.remaining_time.1.2 = 0) →
      ¬(L.getWhiteActive g.logic true = false ∧ g.remaining_time.2.1 = 0) →
      (L.getWhiteActive g.logic false = true ∧ g.remaining_time.2.2 = 0) →
      Game.winner L g = .B2) ∧
    (¬(L.getWhiteActive g.logic true = true ∧ g.remaining_time.1.1 = 0) →
      ¬(L.getWhiteActive g.logic false = false ∧ g.remaining_time.1.2 = 0) →
      ¬(L.getWhiteActive g.logic true = false ∧ g.remaining_time.2.1 = 0) →
      ¬(L.getWhiteActive g.logic false = true ∧ g.remaining_time.2.2 = 0) →
      Game.winner L g = L.getWinner g.logic true) ∧
    ((Game.winner L g = .W1 ∨ Game.winner L g = .B2) →
      lookupA (Session.check_end_conditions L s).users u1 =
        (lookupA s.users u1).map (fun u => { u with score := u.score + 1 }) ∧
      lookupA (Session.check_end_conditions L s).users u2 =
        (lookupA s.users u2).map (fun u => { u with score := u.score + 1 }) ∧
      (∀ k, k ≠ u1 → k ≠ u2 →
        lookupA (Session.check_end_conditions L s).users k = lookupA s.users k) ∧
      (Session.check_end_conditions L s).game = .ended i ∧
      (Session.check_end_conditions L s).events =
        s.events ++ [(u1, .gameEnded (some (u1, u2)))] ∧
      (Session.check_end_conditions L s).user_ids = s.user_ids ∧
      (Session.check_end_conditions L s).participants = s.participants ∧
      (Session.check_end_conditions L s).queue = s.queue) ∧
    ((Game.winner L g = .B1 ∨ Game.winner L g = .W2) →
      lookupA (Session.check_end_conditions L s).users u3 =
        (lookupA s.users u3).map (fun u => { u with score := u.score + 1 }) ∧
      lookupA (Session.check_end_conditions L s).users u4 =
        (lookupA s.users u4).map (fun u => { u with score := u.score + 1 }) ∧
      (∀ k, k ≠ u3 → k ≠ u4 →
        lookupA (Session.check_end_conditions L s).users k = lookupA s.users k) ∧
      (Session.check_end_conditions L s).game = .ended i ∧
      (Session.check_end_conditions L s).events =
        s.events ++ [(u3, .gameEnded (some (u3, u4)))] ∧
      (Session.check_end_conditions L s).user_ids = s.user_ids ∧
      (Session.check_end_conditions L s).participants = s.participants ∧
      (Session.check_end_conditions L s).queue = s.queue) ∧
    (Game.winner L g = .P →
      (Session.check_end_conditions L s).users = s.users ∧
      (Session.check_end_conditions L s).game = .ended i ∧
      (Session.check_end_conditions L s).events =
        s.events ++ [(0, .gameEnded none)] ∧
      (Session.check_end_conditions L s).user_ids = s.user_ids ∧
      (Session.check_end_conditions L s).participants = s.participants ∧
      (Session.check_end_conditions L s).queue = s.queue) ∧
    (Game.winner L g = .Continue → Session.check_end_conditions L s = s) := by
  have hget : s.game.get = some g := by rw [hg]; rfl
  have hid : s.game.id = i := by rw [hg]; rfl
  obtain ⟨ap, ck, ⟨⟨r1, r2⟩, r3, r4⟩, lg⟩ := g
  obtain rfl : ap = ((u1, u2), (u3, u4)) := by simpa using hap
  refine ⟨?_, ?_, ?_, ?_, ?_, ?_, ?_, ?_, ?_⟩
  · rintro ⟨hw, hr⟩
    unfold Game.winner
    dsimp only [ZERO_SECS]
    rw [if_pos ⟨hw, hr⟩]
  · rintro hn1 ⟨hw, hr⟩
    unfold Game.winner
    dsimp only [ZERO_SECS]
    dsimp only at hn1
    rw [if_neg hn1, if_pos ⟨by simp [hw], hr⟩]
  · rintro hn1 hn2 ⟨hw, hr⟩
    unfold Game.winner
    dsimp only [ZERO_SECS]
    dsimp only at hn1 hn2
    rw [if_neg hn1, if_neg (fun hc => hn2 ⟨by simpa using hc.1, hc.2⟩),
      if_pos ⟨by simp [hw], hr⟩]
  · rintro hn1 hn2 hn3 ⟨hw, hr⟩
    unfold Game.winner
    dsimp only [ZERO_SECS]
    dsimp only at hn1 hn2 hn3
    rw [if_neg hn1, if_neg (fun hc => hn2 ⟨by simpa using hc.1, hc.2⟩),
      if_neg (fun hc => hn3 ⟨by simpa using hc.1, hc.2⟩), if_pos ⟨hw, hr⟩]
  · rintro hn1 hn2 hn3 hn4
    unfold Game.winner
    dsimp only [ZERO_SECS]
    dsimp only at hn1 hn2 hn3 hn4
    rw [if_neg hn1, if_neg (fun hc => hn2 ⟨by simpa using hc.1, hc.2⟩),
      if_neg (fun hc => hn3 ⟨by simpa using hc.1, hc.2⟩), if_neg hn4]
  · intro hw
    rcases hw with hw | hw <;>
    · unfold Session.check_end_conditions
      rw [hget]
      simp only [hw, hid]
      rw [notify_all_eq]
      refine ⟨?_, ?_, ?_, rfl, rfl, rfl, rfl, rfl⟩
      · rw [lookupA_bumpScore, if_neg h12, lookupA_bumpScore, if_pos rfl]
      · rw [lookupA_bumpScore, if_pos rfl, lookupA_bumpScore, if_neg (Ne.symm h12)]
      · intro k hk1 hk2
        rw [lookupA_bumpScore, if_neg hk2, lookupA_bumpScore, if_neg hk1]
  · intro hw
    rcases hw with hw | hw <;>
    · unfold Session.check_end_conditions
      rw [hget]
      simp only [hw, hid]
      rw [notify_all_eq]
      refine ⟨?_, ?_, ?_, rfl, rfl, rfl, rfl, rfl⟩
      · rw [lookupA_bumpScore, if_neg h34, lookupA_bumpScore, if_pos rfl]
      · rw [lookupA_bumpScore, if_pos rfl, lookupA_bumpScore, if_neg (Ne.symm h34)]
      · intro k hk1 hk2
        rw [lookupA_bumpScore, if_neg hk2, lookupA_bumpScore, if_neg hk1]
  · intro hw
    unfold Session.check_end_conditions
    rw [hget]
    simp only [hw, hid]
    rw [notify_all_eq]
    exact ⟨rfl, rfl, rfl, rfl, rfl, rfl⟩
  · intro hw
    unfold Session.check_end_conditions
    rw [hget]
    simp only [hw]

/-- C1 witness: with the oracle reporting `W1` and no flag fall, the
concrete session's team-1 scores are bumped, the state becomes `Ended{7}`,
and `GameEnded` with winners `(1, 2)` is emitted. -/
theorem check_end_conditions_spec_witness :
    lookupA (Session.check_end_conditions oracleW1 sessionStub).users 1 =
      some ⟨['a'], 1⟩ ∧
    (Session.check_end_conditions oracleW1 sessionStub).game = .ended 7 ∧
    (Session.check_end_conditions oracleW1 sessionStub).events =
      [(1, .gameEnded (some (1, 2)))] := by
  have h := (check_end_conditions_spec oracleW1 sessionStub 7 gameStub 1 2 3 4 rfl
    rfl (by decide) (by decide)).2.2.2.2.2.1 (Or.inl rfl)
  exact ⟨h.1.trans rfl, h.2.2.2.1, h.2.2.2.2.1⟩

/-- C5: the `Start` command succeeds iff the caller's token maps to the
owner (`UserId 0`), the state is `Starting` or `Ended` (not `Started`), the
participants count is within `[4, max_participant]`, and the queue is
non-empty after its lazy fill; on success the head pairing is popped and
the state becomes `Started` with `id = previous id + 1` and a freshly
initialized game; on failure the session is unchanged. -/
theorem handle_start_spec {σ : Type} (L : LogicModel σ) (s : Session σ)
    (tok now : Nat) :
    ((Session.handle_start L s tok now).2 = true ↔
      (s.is_owner tok = true ∧ s.game.did_start = false ∧
        4 ≤ s.participants.length ∧ s.participants.length ≤ s.maxParticipant ∧
        (Session.fill_queue s).1.queue ≠ [])) ∧
    ((Session.handle_start L s tok now).2 = true →
      ∃ ap rest, (Session.fill_queue s).1.queue = ap :: rest ∧
        (Session.handle_start L s tok now).1 =
          { (Session.fill_queue s).1 with
              queue := rest
              game := .started (s.game.id + 1) (Game.new L ap now) }) ∧
    ((Session.handle_start L s tok now).2 = false →
      (Session.handle_start L s tok now).1 = s) := by
  obtain ⟨ui, us, pa, qu, ga, fb, hr, rc, ev, mu, mp⟩ := s
  dsimp only
  unfold Session.handle_start
  by_cases how : Session.is_owner ⟨ui, us, pa, qu, ga, fb, hr, rc, ev, mu, mp⟩ tok = true
  case neg =>
    rw [if_pos (by simp [how])]
    refine ⟨⟨fun h => Bool.noConfusion h, fun h => absurd h.1 how⟩,
      fun h => Bool.noConfusion h, fun _ => rfl⟩
  case pos =>
    rw [if_neg (by simp [how])]
    unfold Session.start_game
    by_cases hbound : pa.length < 4 ∨ mp < pa.length ∨ GameState.did_start ga
    · rw [if_pos hbound]
      refine ⟨⟨fun h => Bool.noConfusion h, ?_⟩, fun h => Bool.noConfusion h,
        fun _ => rfl⟩
      rintro ⟨-, hds, h4, hmax, -⟩
      rcases hbound with h | h | h
      · omega
      · omega
      · exact absurd h (by simp [hds])
    · rw [if_neg hbound]
      push_neg at hbound
      obtain ⟨h4, hmax, hds⟩ := hbound
      simp only [Bool.not_eq_true] at hds
      rcases hq : qu with _ | ⟨q0, qs⟩
      · cases hst : GameState.is_starting ga
        · have hf : Session.fill_queue ⟨ui, us, pa, [], ga, fb, hr, rc, ev, mu, mp⟩ =
              (⟨ui, us, pa, [], ga, fb, hr, rc, ev, mu, mp⟩, false) := by
            unfold Session.fill_queue
            rw [if_neg (by simp), if_pos (by simp [hst])]
          rw [hf]
          refine ⟨⟨fun h => Bool.noConfusion h, ?_⟩, fun h => Bool.noConfusion h,
            fun _ => rfl⟩
          rintro ⟨-, -, -, -, hne⟩
          exact (hne rfl).elim
        · have hf : Session.fill_queue ⟨ui, us, pa, [], ga, fb, hr, rc, ev, mu, mp⟩ =
              ({ user_ids := ui, users := us, participants := pa,
                 queue := (create_pairings pa.length).map fun pr =>
                   ((pa.getD (pr.1.1 - 1) 0, pa.getD (pr.1.2 - 1) 0),
                     (pa.getD (pr.2.1 - 1) 0, pa.getD (pr.2.2 - 1) 0)),
                 game := ga, failed_broadcasts := fb, hasReceiver := hr,
                 rxClosed := rc, events := ev, maxUser := mu,
                 maxParticipant := mp }, true) := by
            unfold Session.fill_queue
            rw [if_neg (by simp), if_neg (by simp [hst])]
          rw [hf]
          set M := (create_pairings pa.length).map
              (fun pr => ((pa.getD (pr.1.1 - 1) 0, pa.getD (pr.1.2 - 1) 0),
                (pa.getD (pr.2.1 - 1) 0, pa.getD (pr.2.2 - 1) 0))) with hM
          clear_value M
          rcases M with _ | ⟨m0, ms⟩
          · refine ⟨⟨fun h => Bool.noConfusion h, ?_⟩, fun h => Bool.noConfusion h,
              fun _ => rfl⟩
            rintro ⟨-, -, -, -, hne⟩
            exact (hne rfl).elim
          · refine ⟨⟨fun _ => ⟨how, hds, h4, hmax, ?_⟩, fun _ => rfl⟩,
              fun _ => ⟨m0, ms, rfl, rfl⟩, fun h => Bool.noConfusion h⟩
            exact List.cons_ne_nil m0 ms
      · have hf : Session.fill_queue ⟨ui, us, pa, q0 :: qs, ga, fb, hr, rc, ev, mu, mp⟩ =
            (⟨ui, us, pa, q0 :: qs, ga, fb, hr, rc, ev, mu, mp⟩, true) := by
          unfold Session.fill_queue
          rw [if_pos (by simp)]
        rw [hf]
        refine ⟨⟨fun _ => ⟨how, hds, h4, hmax, ?_⟩, fun _ => rfl⟩,
          fun _ => ⟨q0, qs, rfl, rfl⟩, fun h => Bool.noConfusion h⟩
        exact List.cons_ne_nil q0 qs

/-- C5 witness: on the concrete lobby session the owner's `Start` succeeds
(all preconditions discharged at the concrete values). -/
theorem handle_start_spec_witness :
    (Session.handle_start oracleStub sessionLobbyStub 5 0).2 = true := by
  exact (handle_start_spec oracleStub sessionLobbyStub 5 0).1.mpr
    ⟨rfl, rfl, by decide, by decide, by decide⟩

/-- Broadcasting does not touch the game state. -/
theorem notify_all_game {σ : Type} (s : Session σ) (c : Nat) (e : EventType) :
    (s.notify_all c e).game = s.game := by
  rw [notify_all_eq]

/-- `add_user` does not touch the game state. -/
theorem add_user_game {σ : Type} (ia iw : Char → Bool) (s : Session σ)
    (name : List Char) (tok : Nat) :
    (Session.add_user ia iw s name tok).1.game = s.game := by
  unfold Session.add_user
  split
  · rfl
  · split <;> rfl

/-- `set_participants` does not touch the game state. -/
theorem set_participants_game {σ : Type} (s : Session σ) (ps : List Nat) :
    (Session.set_participants s ps).1.game = s.game := by
  unfold Session.set_participants
  split <;> rfl

/-- `fill_queue` does not touch the game state. -/
theorem fill_queue_game {σ : Type} (s : Session σ) :
    (Session.fill_queue s).1.game = s.game := by
  unfold Session.fill_queue
  split
  · rfl
  · split <;> rfl

/-- `mapG` preserves the game id. -/
theorem mapG_id {σ : Type} (gs : GameState σ) (f : Game σ → Game σ) :
    (gs.mapG f).id = gs.id := by
  cases gs <;> rfl

/-- `mapG` preserves the state constructor. -/
theorem mapG_did_start {σ : Type} (gs : GameState σ) (f : Game σ → Game σ) :
    (gs.mapG f).did_start = gs.did_start := by
  cases gs <;> rfl

/-- `check_end_conditions` preserves the game id and never enters
`Started`. -/
theorem check_end_conditions_B {σ : Type} (L : LogicModel σ) (s : Session σ)
    (gs : GameState σ) (hsg : s.game = gs) :
    (Session.check_end_conditions L s).game.id = gs.id ∧
    ((Session.check_end_conditions L s).game.did_start = true →
      gs.did_start = true) := by
  unfold Session.check_end_conditions
  dsimp only
  rw [hsg]
  cases gs with
  | starting => exact ⟨congrArg GameState.id hsg, fun h => hsg ▸ h⟩
  | ended i => exact ⟨congrArg GameState.id hsg, fun h => hsg ▸ h⟩
  | started i g =>
    rcases hw : Game.winner L g <;> simp only [GameState.get, hw] <;>
      first
      | exact ⟨congrArg GameState.id hsg, fun h => hsg ▸ h⟩
      | (refine ⟨?_, fun _ => rfl⟩
         rw [notify_all_game]
         rfl)

/-- Running a board-command body on the stored game preserves the game id
and the state constructor. -/
theorem onGame_B {σ : Type} (s : Session σ) (f : Game σ → Game σ × Bool)
    (gs : GameState σ) (hsg : s.game = gs) :
    (s.onGame f).1.game.id = gs.id ∧
    ((s.onGame f).1.game.did_start = true → gs.did_start = true) := by
  unfold Session.onGame
  rw [hsg]
  cases gs with
  | starting => exact ⟨rfl, fun h => h⟩
  | ended i => exact ⟨rfl, fun h => h⟩
  | started i g => exact ⟨rfl, fun _ => rfl⟩

/-- `Session::tick` preserves the game id and never enters `Started`. -/
theorem tick_B {σ : Type} (L : LogicModel σ) (s : Session σ)
    (n1 n2 n3 n4 : Nat) :
    (Session.tick L s n1 n2 n3 n4).game.id = s.game.id ∧
    ((Session.tick L s n1 n2 n3 n4).game.did_start = true →
      s.game.did_start = true) := by
  unfold Session.tick
  have h := check_end_conditions_B L
    { s with game := s.game.mapG fun g =>
        ((Game.update_remaining_time L g true n1).refresh_clock true n2
          |> fun g => Game.update_remaining_time L g false n3
          |> fun g => g.refresh_clock false n4) } _ rfl
  constructor
  · rw [h.1]
    exact mapG_id ..
  · intro hst
    have h2 := h.2 hst
    rw [mapG_did_start] at h2
    exact h2

/-- `start_game` either leaves the game state alone (failure) or moves to
`Started` with the id incremented by exactly one, from a non-`Started`
state. -/
theorem start_game_game {σ : Type} (L : LogicModel σ) (s : Session σ)
    (now : Nat) :
    (Session.start_game L s now).1.game = s.game ∨
    ((Session.start_game L s now).1.game.id = s.game.id + 1 ∧
      (Session.start_game L s now).1.game.did_start = true ∧
      s.game.did_start = false) := by
  unfold Session.start_game
  split
  · exact Or.inl rfl
  · rename_i hb
    have hds : s.game.did_start = false := by
      rcases h : s.game.did_start
      · rfl
      · exact absurd (Or.inr (Or.inr h)) hb
    rcases hf : Session.fill_queue s with ⟨s2, ok⟩
    have hg2 : s2.game = s.game := by
      have h := fill_queue_game s
      rw [hf] at h
      exact h
    cases ok
    · exact Or.inl hg2
    · dsimp only
      rcases hq2 : s2.queue with _ | ⟨ap, rest⟩
      · exact Or.inl hg2
      · refine Or.inr ⟨?_, rfl, hds⟩
        show s2.game.id + 1 = s.game.id + 1
        rw [hg2]

/-- C6: along every step of the session actor, the game id never decreases:
it is 0 in `Starting`, increases by exactly 1 on every transition into
`Started`, stays equal across a `Started{k} → Ended{k}` transition, and is
non-decreasing over every sequence of operations (so ids are never reused
or decremented). -/
theorem session_game_id_monotone_spec {σ : Type} (L : LogicModel σ)
    (ia iw : Char → Bool) :
    GameState.id (σ := σ) .starting = 0 ∧
    (∀ (s : Session σ) (op : SessionOp),
      s.game.id ≤ (applySessionOp L ia iw s op).game.id) ∧
    (∀ (s : Session σ) (op : SessionOp),
      s.game.did_start = false →
      (applySessionOp L ia iw s op).game.did_start = true →
      (applySessionOp L ia iw s op).game.id = s.game.id + 1) ∧
    (∀ (s : Session σ) (op : SessionOp),
      s.game.did_start = true →
      (applySessionOp L ia iw s op).game.did_end = true →
      (applySessionOp L ia iw s op).game.id = s.game.id) ∧
    (∀ (s : Session σ) (ops : List SessionOp),
      s.game.id ≤ (ops.foldl (applySessionOp L ia iw) s).game.id) := by
  have master : ∀ (s : Session σ) (op : SessionOp),
      (applySessionOp L ia iw s op).game = s.game ∨
      ((applySessionOp L ia iw s op).game.id = s.game.id ∧
        ((applySessionOp L ia iw s op).game.did_start = true →
          s.game.did_start = true)) ∨
      ((applySessionOp L ia iw s op).game.id = s.game.id + 1 ∧
        (applySessionOp L ia iw s op).game.did_start = true ∧
        s.game.did_start = false) := by
    intro s op
    cases op with
    | addUser name tok =>
      unfold applySessionOp
      dsimp only
      rcases hau : Session.add_user ia iw s name tok with ⟨s2, r⟩
      have hg2 : s2.game = s.game := by
        have h := add_user_game ia iw s name tok
        rw [hau] at h
        exact h
      rcases r with _ | ⟨uid, tk⟩
      · exact Or.inl hg2
      · exact Or.inl ((notify_all_game ..).trans hg2)
    | setParticipants ps =>
      unfold applySessionOp
      dsimp only
      rcases hsp : Session.set_participants s ps with ⟨s2, ok⟩
      have hg2 : s2.game = s.game := by
        have h := set_participants_game s ps
        rw [hsp] at h
        exact h
      cases ok
      · exact Or.inl hg2
      · exact Or.inl ((notify_all_game ..).trans hg2)
    | fillQueue => exact Or.inl (fill_queue_game s)
    | start tok now =>
      unfold applySessionOp
      dsimp only
      rcases hhs : Session.handle_start L s tok now with ⟨s2, ok⟩
      have hg2 : s2.game = s.game ∨
          (s2.game.id = s.game.id + 1 ∧ s2.game.did_start = true ∧
            s.game.did_start = false) := by
        unfold Session.handle_start at hhs
        split at hhs
        · cases hhs
          exact Or.inl rfl
        · have h := start_game_game L s now
          rw [hhs] at h
          exact h
      cases ok
      · rcases hg2 with h | h
        · exact Or.inl h
        · exact Or.inr (Or.inr h)
      · rcases hg2 with h | h
        · exact Or.inl ((notify_all_game ..).trans h)
        · refine Or.inr (Or.inr ⟨?_, ?_, h.2.2⟩)
          · rw [notify_all_game]
            exact h.1
          · rw [notify_all_game]
            exact h.2.1
    | tick n1 n2 n3 n4 => exact Or.inr (Or.inl (tick_B L s n1 n2 n3 n4))
    | deploy tok piece pos n1 n2 n3 n4 n5 n6 n7 =>
      unfold applySessionOp
      dsimp only
      rcases hub : lookupA s.user_ids tok with _ | uid
      · exact Or.inl rfl
      · dsimp only
        rcases hog : s.onGame
            (fun g => Game.deploy_piece L g uid piece pos n1 n2 n3) with ⟨s2, ok⟩
        have hB : s2.game.id = s.game.id ∧
            (s2.game.did_start = true → s.game.did_start = true) := by
          have h := onGame_B s
            (fun g => Game.deploy_piece L g uid piece pos n1 n2 n3) s.game rfl
          rw [hog] at h
          exact h
        cases ok
        · exact Or.inr (Or.inl hB)
        · have ht := tick_B L (s2.notify_all uid (.pieceDeployed true piece pos))
            n4 n5 n6 n7
          refine Or.inr (Or.inl ⟨?_, ?_⟩)
          · rw [ht.1, notify_all_game, hB.1]
          · intro h
            have h2 := ht.2 h
            rw [notify_all_game] at h2
            exact hB.2 h2
    | move tok change n1 n2 n3 n4 n5 n6 n7 =>
      unfold applySessionOp
      dsimp only
      rcases hub : lookupA s.user_ids tok with _ | uid
      · exact Or.inl rfl
      · dsimp only
        rcases hog : s.onGame
            (fun g => Game.move_piece L g uid change n1 n2 n3) with ⟨s2, ok⟩
        have hB : s2.game.id = s.game.id ∧
            (s2.game.did_start = true → s.game.did_start = true) := by
          have h := onGame_B s
            (fun g => Game.move_piece L g uid change n1 n2 n3) s.game rfl
          rw [hog] at h
          exact h
        cases ok
        · exact Or.inr (Or.inl hB)
        · have ht := tick_B L (s2.notify_all uid (.pieceMoved true change))
            n4 n5 n6 n7
          refine Or.inr (Or.inl ⟨?_, ?_⟩)
          · rw [ht.1, notify_all_game, hB.1]
          · intro h
            have h2 := ht.2 h
            rw [notify_all_game] at h2
            exact hB.2 h2
    | promote tok change up n1 n2 n3 n4 n5 n6 n7 =>
      unfold applySessionOp
      dsimp only
      rcases hub : lookupA s.user_ids tok with _ | uid
      · exact Or.inl rfl
      · dsimp only
        rcases hog : s.onGame
            (fun g => Game.promote_piece L g uid change up n1 n2 n3) with ⟨s2, ok⟩
        have hB : s2.game.id = s.game.id ∧
            (s2.game.did_start = true → s.game.did_start = true) := by
          have h := onGame_B s
            (fun g => Game.promote_piece L g uid change up n1 n2 n3) s.game rfl
          rw [hog] at h
          exact h
        cases ok
        · exact Or.inr (Or.inl hB)
        · have ht := tick_B L (s2.notify_all uid (.piecePromoted true change up))
            n4 n5 n6 n7
          refine Or.inr (Or.inl ⟨?_, ?_⟩)
          · rw [ht.1, notify_all_game, hB.1]
          · intro h
            have h2 := ht.2 h
            rw [notify_all_game] at h2
            exact hB.2 h2
    | resign tok =>
      unfold applySessionOp
      dsimp only
      rcases hub : lookupA s.user_ids tok with _ | uid
      · exact Or.inl rfl
      · dsimp only
        rcases hog : s.onGame (fun g => Game.resign L g uid) with ⟨s2, ok⟩
        have hB : s2.game.id = s.game.id ∧
            (s2.game.did_start = true → s.game.did_start = true) := by
          have h := onGame_B s (fun g => Game.resign L g uid) s.game rfl
          rw [hog] at h
          exact h
        cases ok
        · exact Or.inr (Or.inl hB)
        · have hc := check_end_conditions_B L s2 s2.game rfl
          refine Or.inr (Or.inl ⟨?_, ?_⟩)
          · rw [hc.1, hB.1]
          · intro h
            exact hB.2 (hc.2 h)
    | notify c e => exact Or.inl (notify_all_game ..)
    | delete tok =>
      unfold applySessionOp
      dsimp only
      split <;> exact Or.inl rfl
  have hle : ∀ (s : Session σ) (op : SessionOp),
      s.game.id ≤ (applySessionOp L ia iw s op).game.id := by
    intro s op
    rcases master s op with h | h | h
    · rw [h]
    · rw [h.1]
    · rw [h.1]
      exact Nat.le_succ _
  refine ⟨rfl, hle, ?_, ?_, ?_⟩
  · intro s op hns hs
    rcases master s op with h | h | h
    · rw [h] at hs
      rw [hs] at hns
      cases hns
    · rw [h.2 hs] at hns
      cases hns
    · exact h.1
  · intro s op hst hed
    rcases master s op with h | h | h
    · rw [h]
    · exact h.1
    · rw [h.2.2] at hst
      cases hst
  · intro s ops
    induction ops generalizing s with
    | nil => exact le_refl _
    | cons op rest ih =>
      exact (hle s op).trans (ih (applySessionOp L ia iw s op))

/-- C6 witness: the lobby id is 0, and the concrete successful `Start` on
the lobby session transitions into `Started` with id exactly 1. -/
theorem session_game_id_monotone_spec_witness :
    GameState.id (σ := Unit) .starting = 0 ∧
    (applySessionOp oracleStub Char.isAlpha Char.isWhitespace sessionLobbyStub
        (.start 5 0)).game.id = 1 := by
  refine ⟨(session_game_id_monotone_spec oracleStub Char.isAlpha
    Char.isWhitespace).1, ?_⟩
  have h := (session_game_id_monotone_spec oracleStub Char.isAlpha
    Char.isWhitespace).2.2.1 sessionLobbyStub (.start 5 0) rfl (by decide)
  rw [h]
  rfl

end Bughouse
